import Mathlib

/-!
Verification development for the text-utilities tool server
(`src/mcp-bearer-token/mcp_starter.py`).

The server's `call_tool` dispatcher and its per-tool handlers are shallowly
embedded here.  Python strings are modelled as `List Char`; Python byte
strings as `List Nat` (each entry `< 256`); the dynamic values of an
argument mapping as `PyValue` (string / int / bool); a Python-level
exception escaping a handler as the `Except.error` case of the result.
Case mapping (`str.upper` and friends) is modelled on the ASCII range,
which covers every string the specification mentions.  Library primitives
with no algorithmic content in this repository (the `re.findall` calls of
`extract_data`, the `secrets.choice` random source) are supplied through an
environment record `Env`, alongside the `AUTH_TOKEN` / `MY_NUMBER`
configuration.
-/

/-! ## Python string primitives over `List Char` -/

/-- Whitespace as recognised by `str.strip` / `str.split` / regex `\s`
(ASCII range). -/
def isPySpace (c : Char) : Bool :=
  c = ' ' || c = '\t' || c = '\n' || c = '\r' || c = '\x0b' || c = '\x0c'

/-- Drop the longest suffix whose characters all satisfy `p`. -/
def dropWhileEnd (p : Char → Bool) : List Char → List Char
  | [] => []
  | c :: rest =>
    let r := dropWhileEnd p rest
    if r = [] && p c then [] else c :: r

/-- Python `str.strip()` (no argument): remove leading and trailing
whitespace. -/
def pyStrip (cs : List Char) : List Char :=
  dropWhileEnd isPySpace (cs.dropWhile isPySpace)

/-- Python `str.strip(t)` for a single strip character `t`. -/
def pyStripChar (t : Char) (cs : List Char) : List Char :=
  dropWhileEnd (· = t) (cs.dropWhile (· = t))

/-- Python `str.lower()` (ASCII model). -/
def pyLower (cs : List Char) : List Char := cs.map Char.toLower

/-- Python `str.upper()` (ASCII model). -/
def pyUpper (cs : List Char) : List Char := cs.map Char.toUpper

/-- Python `str.capitalize()`: first character uppercased, the rest
lowercased. -/
def pyCapitalize : List Char → List Char
  | [] => []
  | c :: rest => Char.toUpper c :: pyLower rest

/-- Worker for `pyTitle`: the flag records whether the previous character
was alphabetic. -/
def pyTitleGo : Bool → List Char → List Char
  | _, [] => []
  | prevAlpha, c :: rest =>
    (if c.isAlpha then (if prevAlpha then Char.toLower c else Char.toUpper c) else c)
      :: pyTitleGo c.isAlpha rest

/-- Python `str.title()` (ASCII model): uppercase each letter that starts a
run of letters, lowercase the other letters. -/
def pyTitle (cs : List Char) : List Char := pyTitleGo false cs

/-- Regex class `[a-zA-Z0-9]`. -/
def isAsciiAlnum (c : Char) : Bool := c.isAlpha || c.isDigit

/-- Worker for `pySplitWs`: `cur` is the reversed current token. -/
def pySplitWsGo (cur : List Char) : List Char → List (List Char)
  | [] => if cur.isEmpty then [] else [cur.reverse]
  | c :: rest =>
    if isPySpace c then
      if cur.isEmpty then pySplitWsGo [] rest
      else cur.reverse :: pySplitWsGo [] rest
    else pySplitWsGo (c :: cur) rest

/-- Python `str.split()` with no separator: tokens between whitespace runs,
never empty. -/
def pySplitWs (cs : List Char) : List (List Char) := pySplitWsGo [] cs

/-- Number of maximal runs of characters satisfying `p`
(the length of `re.findall(r'[class]+', text)`).  A run is counted at its
last character. -/
def countRuns (p : Char → Bool) : List Char → Nat
  | [] => 0
  | c :: rest =>
    if p c then
      (match rest with
       | d :: _ => if p d then countRuns p rest else 1 + countRuns p rest
       | [] => 1)
    else countRuns p rest

/-- The sentence-terminator class `[.!?]` of `count_text`. -/
def isSentencePunct (c : Char) : Bool := c = '.' || c = '!' || c = '?'

/-- Python `text.split('\n\n')`: split on the literal two-character
separator, left to right, non-overlapping. -/
def splitOnNN : List Char → List (List Char)
  | [] => [[]]
  | '\n' :: '\n' :: rest => [] :: splitOnNN rest
  | c :: rest =>
    match splitOnNN rest with
    | [] => [[c]]
    | h :: t => (c :: h) :: t

/-- Python `text.split('\n')`. -/
def splitOnNL : List Char → List (List Char)
  | [] => [[]]
  | '\n' :: rest => [] :: splitOnNL rest
  | c :: rest =>
    match splitOnNL rest with
    | [] => [[c]]
    | h :: t => (c :: h) :: t

/-- Python `'\n'.join(parts)`. -/
def joinNL (ls : List (List Char)) : List Char := List.intercalate ['\n'] ls

/-- Regex substitution `re.sub(t+, t, cs)`: collapse each run of the
character `t` to a single occurrence (the run's last element survives). -/
def collapseRun (t : Char) : List Char → List Char
  | [] => []
  | [c] => [c]
  | a :: b :: rest =>
    if a = t && b = t then collapseRun t (b :: rest)
    else a :: collapseRun t (b :: rest)

/-- Regex substitution `re.sub(r'\s+', ' ', cs)`: replace each whitespace
run by one space. -/
def wsRunsToSpace : List Char → List Char
  | [] => []
  | c :: rest =>
    if isPySpace c then
      match rest with
      | d :: _ => if isPySpace d then wsRunsToSpace rest else ' ' :: wsRunsToSpace rest
      | [] => [' ']
    else c :: wsRunsToSpace rest

/-- Worker for `collapseNL3`: `run` counts the newlines seen immediately
before the current position. -/
def collapseNL3Go (run : Nat) : List Char → List Char
  | [] => []
  | c :: rest =>
    if c = '\n' then
      if 2 ≤ run then collapseNL3Go run rest
      else '\n' :: collapseNL3Go (run + 1) rest
    else c :: collapseNL3Go 0 rest

/-- Regex substitution `re.sub(r'\n\x7b3,\x7d', '\n\n', cs)`: shrink runs of
three or more newlines to exactly two (the first two newlines of any run
survive, the rest are dropped). -/
def collapseNL3 (cs : List Char) : List Char := collapseNL3Go 0 cs

/-! ## Number rendering used by the handlers' format strings -/

/-- Decimal digits of a natural number. -/
def natDigits (n : Nat) : List Char := (Nat.repr n).toList

/-- Insert thousands separators into a reversed digit list. -/
def commasRev : List Char → List Char
  | a :: b :: c :: rest =>
    match rest with
    | [] => [a, b, c]
    | _ :: _ => a :: b :: c :: ',' :: commasRev rest
  | x => x

/-- Python format `\x7bn:,\x7d` for a natural number. -/
def withCommas (n : Nat) : List Char := (commasRev (natDigits n).reverse).reverse

/-- Value of `num / den` scaled by ten and rounded half-to-even.  This
renders the `:.1f` formatting of the handlers' integer ratios; the binary
floating-point rounding of CPython can differ from the exact rational
rounding only on ties invisible at one decimal place. -/
def round1HalfEven (num den : Nat) : Nat :=
  let t := num * 10
  let q := t / den
  let r := t % den
  if den < 2 * r then q + 1
  else if 2 * r < den then q
  else if q % 2 = 0 then q else q + 1

/-- Render `num / den` with one decimal digit (Python `\x7bx:.1f\x7d`). -/
def fmtRatio1 (num den : Nat) : List Char :=
  let v := round1HalfEven num den
  natDigits (v / 10) ++ '.' :: natDigits (v % 10)

/-! ## Base64 (`base64.b64encode` / `base64.b64decode`) -/

/-- Character of the standard Base64 alphabet at index `n < 64`. -/
def b64char (n : Nat) : Char :=
  if n < 26 then Char.ofNat (65 + n)
  else if n < 52 then Char.ofNat (97 + (n - 26))
  else if n < 62 then Char.ofNat (48 + (n - 52))
  else if n = 62 then '+' else '/'

/-- Index of a character in the standard Base64 alphabet, `none` outside
it. -/
def b64value (c : Char) : Option Nat :=
  if 'A' ≤ c && c ≤ 'Z' then some (c.toNat - 65)
  else if 'a' ≤ c && c ≤ 'z' then some (c.toNat - 71)
  else if '0' ≤ c && c ≤ '9' then some (c.toNat + 4)
  else if c = '+' then some 62
  else if c = '/' then some 63
  else none

/-- `base64.b64encode`: bytes to Base64 text, three bytes per four output
characters, `=`-padded. -/
def b64encodeBytes : List Nat → List Char
  | [] => []
  | [a] => [b64char (a / 4), b64char (a % 4 * 16), '=', '=']
  | [a, b] => [b64char (a / 4), b64char (a % 4 * 16 + b / 16), b64char (b % 16 * 4), '=']
  | a :: b :: c :: rest =>
    b64char (a / 4) :: b64char (a % 4 * 16 + b / 16) ::
      b64char (b % 16 * 4 + c / 64) :: b64char (c % 64) :: b64encodeBytes rest

/-- Errors of `binascii.a2b_base64`. -/
inductive BinErr where
  /-- `binascii.Error: Incorrect padding` -/
  | padding
  /-- `binascii.Error`: number of data characters is 1 more than a multiple
  of 4. -/
  | leftover
deriving DecidableEq

/-- The quad-position state machine of CPython's `binascii.a2b_base64` in
its default non-strict mode: characters outside the alphabet are discarded;
`=` only counts as padding once two data characters of the current quad
have been seen; a completed padding sequence ends the scan, discarding the
rest of the input. -/
def a2bBase64 (cs : List Char) (quadPos leftchar pads : Nat) : Except BinErr (List Nat) :=
  match cs with
  | [] =>
    if quadPos = 0 then Except.ok []
    else if quadPos = 1 then Except.error BinErr.leftover
    else Except.error BinErr.padding
  | c :: rest =>
    if c = '=' then
      if 2 ≤ quadPos then
        if 4 ≤ quadPos + (pads + 1) then Except.ok []
        else a2bBase64 rest quadPos leftchar (pads + 1)
      else a2bBase64 rest quadPos leftchar pads
    else
      match b64value c with
      | none => a2bBase64 rest quadPos leftchar pads
      | some v =>
        match quadPos with
        | 0 => a2bBase64 rest 1 v 0
        | 1 => (a2bBase64 rest 2 (v % 16) 0).map (fun bs => (leftchar * 4 + v / 16) :: bs)
        | 2 => (a2bBase64 rest 3 (v % 4) 0).map (fun bs => (leftchar * 16 + v / 4) :: bs)
        | _ => (a2bBase64 rest 0 0 0).map (fun bs => (leftchar * 64 + v) :: bs)

/-- Errors that a handler body can raise (escaping only where the source
has no enclosing `try`). -/
inductive PyErr where
  /-- e.g. slicing or calling a string method on a non-string value -/
  | attributeError
  /-- e.g. comparing a string to an integer with `<`, or `b64decode` on a
  non-string -/
  | typeError
  /-- `str.encode('ascii')` inside `b64decode` on non-ASCII input -/
  | valueErrorAscii
  /-- `binascii.Error` from `a2b_base64` -/
  | binascii (e : BinErr)
  /-- `bytes.decode('utf-8')` on invalid UTF-8 -/
  | unicodeDecode
deriving DecidableEq

/-- `base64.b64decode` on a Python `str`: ASCII-encode the text (a
`ValueError` on non-ASCII input), then run the `a2b_base64` machine. -/
def pyB64decode (cs : List Char) : Except PyErr (List Nat) :=
  if cs.any (fun c => 128 ≤ c.toNat) then Except.error PyErr.valueErrorAscii
  else
    match a2bBase64 cs 0 0 0 with
    | Except.error e => Except.error (PyErr.binascii e)
    | Except.ok bs => Except.ok bs

/-! ## UTF-8 (`str.encode('utf-8')` / `bytes.decode('utf-8')`) -/

/-- UTF-8 encoding of one code point. -/
def utf8EncodeChar (c : Char) : List Nat :=
  if c.toNat < 128 then [c.toNat]
  else if c.toNat < 2048 then [192 + c.toNat / 64, 128 + c.toNat % 64]
  else if c.toNat < 65536 then
    [224 + c.toNat / 4096, 128 + c.toNat / 64 % 64, 128 + c.toNat % 64]
  else
    [240 + c.toNat / 262144, 128 + c.toNat / 4096 % 64, 128 + c.toNat / 64 % 64,
      128 + c.toNat % 64]

/-- Python `str.encode('utf-8')`. -/
def utf8Encode (cs : List Char) : List Nat := (cs.map utf8EncodeChar).flatten

/-- State machine of Python's strict `bytes.decode('utf-8')`: `need` is the
number of continuation bytes still expected, `acc` the accumulated code
point bits, and `[lo, hi)` the admissible range of the next continuation
byte (the table rows for `E0`/`ED`/`F0`/`F4` restrict the first one, which
rejects overlong forms, surrogates and code points beyond U+10FFFF). -/
def utf8DecodeSM (bs : List Nat) (need acc lo hi : Nat) : Option (List Char) :=
  match bs with
  | [] => if need = 0 then some [] else none
  | b :: rest =>
    if need = 0 then
      if b < 128 then (utf8DecodeSM rest 0 0 128 192).map (fun cs => Char.ofNat b :: cs)
      else if b < 194 then none
      else if b < 224 then utf8DecodeSM rest 1 (b - 192) 128 192
      else if b = 224 then utf8DecodeSM rest 2 (b - 224) 160 192
      else if b = 237 then utf8DecodeSM rest 2 (b - 224) 128 160
      else if b < 240 then utf8DecodeSM rest 2 (b - 224) 128 192
      else if b = 240 then utf8DecodeSM rest 3 (b - 240) 144 192
      else if b < 244 then utf8DecodeSM rest 3 (b - 240) 128 192
      else if b = 244 then utf8DecodeSM rest 3 (b - 240) 128 144
      else none
    else
      if lo ≤ b ∧ b < hi then
        if need = 1 then
          (utf8DecodeSM rest 0 0 128 192).map
            (fun cs => Char.ofNat (acc * 64 + (b - 128)) :: cs)
        else utf8DecodeSM rest (need - 1) (acc * 64 + (b - 128)) 128 192
      else none

/-- Python `bytes.decode('utf-8')` (strict): rejects truncated sequences,
overlong encodings, surrogates and code points beyond U+10FFFF. -/
def utf8Decode (bs : List Nat) : Option (List Char) := utf8DecodeSM bs 0 0 128 192

/-! ## Argument values, configuration and library environment -/

/-- A dynamic value of the argument mapping (`arguments` is an untyped
JSON-like dict). -/
inductive PyValue where
  | str (s : List Char)
  | int (n : Int)
  | bool (b : Bool)
deriving DecidableEq

deriving instance DecidableEq for Except

/-- The argument mapping of one invocation. -/
abbrev Args := List (String × PyValue)

/-- Python `arguments.get(k, dflt)` (first binding of a key wins). -/
def getArg (args : Args) (k : String) (dflt : PyValue) : PyValue :=
  match args.find? (fun p => p.1 = k) with
  | some p => p.2
  | none => dflt

/-- Python truthiness of a `PyValue` (used by `if include_numbers` etc.). -/
def pyTruthy : PyValue → Bool
  | PyValue.str s => !s.isEmpty
  | PyValue.int n => n != 0
  | PyValue.bool b => b

/-- Is the value a Python `str`? -/
def PyValue.isStr : PyValue → Bool
  | PyValue.str _ => true
  | _ => false

/-- Is the value a Python `int` (JSON integer, not a boolean)? -/
def PyValue.isInt : PyValue → Bool
  | PyValue.int _ => true
  | _ => false

/-- Read-only configuration plus the library primitives the handlers call:
the random index source behind `secrets.choice` and the `re.findall`
matchers of `extract_data` (fixed valid patterns, hence total functions). -/
structure Env where
  AUTH_TOKEN : List Char
  MY_NUMBER : List Char
  choiceIdx : Nat → Nat
  findallEmails : List Char → List (List Char)
  findallUrls : List Char → List (List Char)
  findallPhonesA : List Char → List (List Char × List Char × List Char)
  findallPhonesB : List Char → List (List Char)

/-! ## Tool `validate` -/

/-- The `validate` branch of `call_tool`.  The token is sliced
(`token[:10]`) inside the log call before the comparison, so a non-string
token raises a `TypeError` that nothing catches. -/
def validate_branch (env : Env) (args : Args) : Except PyErr (List Char) :=
  match getArg args "token" (PyValue.str []) with
  | PyValue.str token =>
    Except.ok (if token = env.AUTH_TOKEN then env.MY_NUMBER else "Invalid token".toList)
  | _ => Except.error PyErr.typeError

/-! ## Tool `count_text` -/

/-- The quantities computed by the `count_text` branch. -/
structure TextStats where
  chars_with_spaces : Nat
  chars_without_spaces : Nat
  words : Nat
  sentences : Nat
  paragraphs : Nat
  lines : Nat
  reading_time : Nat
deriving DecidableEq

/-- The counting core of the `count_text` branch. -/
def countTextStats (text : List Char) : TextStats :=
  let words := (pySplitWs text).length
  let sentences0 := countRuns isSentencePunct text
  let paragraphs0 := ((splitOnNN text).filter (fun q => !(pyStrip q).isEmpty)).length
  { chars_with_spaces := text.length
    chars_without_spaces :=
      (text.filter (fun c => !(c = ' ' || c = '\n' || c = '\t'))).length
    words := words
    sentences := if sentences0 = 0 then 1 else sentences0
    paragraphs :=
      if paragraphs0 = 0 then
        ((splitOnNL text).filter (fun q => !(pyStrip q).isEmpty)).length
      else paragraphs0
    lines := (splitOnNL text).length
    reading_time := max 1 (words / 200) }

/-- The `count_text` result f-string. -/
def mkCountTextMsg (st : TextStats) : List Char :=
  "📊 **TEXT STATISTICS**\n\n📝 **Basic Counts:**\n• Characters (with spaces): ".toList
  ++ withCommas st.chars_with_spaces
  ++ "\n• Characters (no spaces): ".toList ++ withCommas st.chars_without_spaces
  ++ "\n• Words: ".toList ++ withCommas st.words
  ++ "\n• Sentences: ".toList ++ withCommas st.sentences
  ++ "\n• Paragraphs: ".toList ++ withCommas st.paragraphs
  ++ "\n• Lines: ".toList ++ withCommas st.lines
  ++ "\n\n📈 **Analysis:**\n• Average words per sentence: ".toList
  ++ fmtRatio1 st.words (max st.sentences 1)
  ++ "\n• Average characters per word: ".toList
  ++ fmtRatio1 st.chars_without_spaces (max st.words 1)
  ++ "\n• Estimated reading time: ".toList ++ natDigits st.reading_time
  ++ " minute(s)\n\n✅ **Analysis complete!**".toList

/-- Body of the `count_text` handler for a string argument. -/
def count_text_body (text : List Char) : Except PyErr (List Char) :=
  if pyStrip text = [] then Except.ok "❌ Text is empty.".toList
  else Except.ok (mkCountTextMsg (countTextStats text))

/-- The `count_text` branch of `call_tool`.  `text.strip()` on a
non-string raises an `AttributeError` that nothing catches. -/
def count_text_branch (args : Args) : Except PyErr (List Char) :=
  match getArg args "text" (PyValue.str []) with
  | PyValue.str text => count_text_body text
  | _ => Except.error PyErr.attributeError

/-! ## Tool `convert_case` -/

/-- `re.sub(r'[^a-zA-Z0-9\s]', '', text).split()` of the camel/pascal
branches. -/
def camelTokens (text : List Char) : List (List Char) :=
  pySplitWs (text.filter (fun c => isAsciiAlnum c || isPySpace c))

/-- The `camel` transform. -/
def camelCase (text : List Char) : List Char :=
  match camelTokens text with
  | [] => text
  | w :: ws => pyLower w ++ (ws.map pyCapitalize).flatten

/-- The `pascal` transform. -/
def pascalCase (text : List Char) : List Char :=
  ((camelTokens text).map pyCapitalize).flatten

/-- Common shape of the `snake` and `kebab` transforms with separator
`sep`: strip, space → `sep`, non-alphanumeric → `sep`, lowercase, collapse
`sep` runs, strip `sep` at the ends. -/
def sepCase (sep : Char) (text : List Char) : List Char :=
  let s1 := (pyStrip text).map (fun c => if c = ' ' then sep else c)
  let s2 := s1.map (fun c => if isAsciiAlnum c then c else sep)
  let s3 := pyLower s2
  pyStripChar sep (collapseRun sep s3)

/-- The `snake` transform. -/
def snakeCase (text : List Char) : List Char := sepCase '_' text

/-- The `kebab` transform. -/
def kebabCase (text : List Char) : List Char := sepCase '-' text

/-- The `alternating` transform. -/
def alternatingCase (text : List Char) : List Char :=
  text.enum.map (fun ic => if ic.1 % 2 = 0 then Char.toUpper ic.2 else Char.toLower ic.2)

/-- Dispatch on `case_type`; `none` is the invalid-case-type fallthrough. -/
def convertCaseResult (text case_type : List Char) : Option (List Char) :=
  if case_type = "upper".toList then some (pyUpper text)
  else if case_type = "lower".toList then some (pyLower text)
  else if case_type = "title".toList then some (pyTitle text)
  else if case_type = "sentence".toList then some (pyCapitalize text)
  else if case_type = "camel".toList then some (camelCase text)
  else if case_type = "pascal".toList then some (pascalCase text)
  else if case_type = "snake".toList then some (snakeCase text)
  else if case_type = "kebab".toList then some (kebabCase text)
  else if case_type = "alternating".toList then some (alternatingCase text)
  else none

/-- Truncated echo `text[:100]` plus ellipsis marker of the output
f-strings. -/
def echo100 (text : List Char) : List Char :=
  text.take 100 ++ (if 100 < text.length then "...".toList else [])

/-- The `convert_case` success f-string. -/
def mkConvertCaseMsg (case_type text result : List Char) : List Char :=
  "✅ **".toList ++ pyUpper case_type ++ " CASE CONVERSION**\n\n**Original:** ".toList
  ++ echo100 text ++ "\n**Result:** ".toList ++ result
  ++ "\n\n📋 **Copy the result above!**".toList

/-- The `convert_case` invalid-selector error string. -/
def invalidCaseMsg : List Char :=
  "❌ Invalid case type. Available options:\n• upper, lower, title, sentence\n• camel, pascal, snake, kebab\n• alternating".toList

/-- Body of the `convert_case` handler for string arguments. -/
def convert_case_body (text ct0 : List Char) : Except PyErr (List Char) :=
  if pyStrip text = [] then Except.ok "❌ Text is empty.".toList
  else
    match convertCaseResult text (pyLower ct0) with
    | some result => Except.ok (mkConvertCaseMsg (pyLower ct0) text result)
    | none => Except.ok invalidCaseMsg

/-- The `convert_case` branch of `call_tool`.  `case_type.lower()` and
`text.strip()` run before the `try`, so they raise on non-strings. -/
def convert_case_branch (args : Args) : Except PyErr (List Char) :=
  match getArg args "case_type" (PyValue.str []) with
  | PyValue.str ct0 =>
    match getArg args "text" (PyValue.str []) with
    | PyValue.str text => convert_case_body text ct0
    | _ => Except.error PyErr.attributeError
  | _ => Except.error PyErr.attributeError

/-! ## Tool `clean_text` -/

/-- `basic` mode: collapse space runs, then strip every line. -/
def cleanBasic (text : List Char) : List Char :=
  joinNL ((splitOnNL (collapseRun ' ' text)).map pyStrip)

/-- `aggressive` mode: every whitespace run becomes one space, then an
overall strip. -/
def cleanAggressive (text : List Char) : List Char :=
  pyStrip (wsRunsToSpace text)

/-- `normalize` mode: overall strip, three-plus newlines to two, collapse
space runs, then strip every line. -/
def cleanNormalize (text : List Char) : List Char :=
  joinNL ((splitOnNL (collapseRun ' ' (collapseNL3 (pyStrip text)))).map pyStrip)

/-- Render a possibly negative count with thousands separators. -/
def withCommasInt (n : Int) : List Char :=
  if n < 0 then '-' :: withCommas (-n).toNat else withCommas n.toNat

/-- Render `num / den` (an integer numerator) with one decimal digit. -/
def fmtRatioInt1 (num : Int) (den : Nat) : List Char :=
  if num < 0 then '-' :: fmtRatio1 (-num).toNat den else fmtRatio1 num.toNat den

/-- The `clean_text` success f-string. -/
def mkCleanMsg (mode text cleaned : List Char) : List Char :=
  let original_length := text.length
  let saved_chars : Int := (original_length : Int) - (cleaned.length : Int)
  "✅ **TEXT CLEANED (".toList ++ pyUpper mode ++ " MODE)**\n\n📊 **Statistics:**\n• Original length: ".toList
  ++ withCommas original_length
  ++ " characters\n• Cleaned length: ".toList ++ withCommas cleaned.length
  ++ " characters\n• Saved: ".toList ++ withCommasInt saved_chars
  ++ " characters (".toList ++ fmtRatioInt1 (saved_chars * 100) original_length
  ++ "%)\n\n**Cleaned text:**\n".toList ++ cleaned
  ++ "\n\n📋 **Copy the cleaned text above!**".toList

/-- Body of the `clean_text` handler: `mode` is compared with `==` (a
non-string simply never matches and falls to the invalid-mode error). -/
def clean_text_body (text : List Char) (mode : PyValue) : Except PyErr (List Char) :=
  if pyStrip text = [] then Except.ok "❌ Text is empty.".toList
  else if mode = PyValue.str "basic".toList then
    Except.ok (mkCleanMsg "basic".toList text (cleanBasic text))
  else if mode = PyValue.str "aggressive".toList then
    Except.ok (mkCleanMsg "aggressive".toList text (cleanAggressive text))
  else if mode = PyValue.str "normalize".toList then
    Except.ok (mkCleanMsg "normalize".toList text (cleanNormalize text))
  else Except.ok "❌ Invalid mode. Use: basic, aggressive, or normalize".toList

/-- The `clean_text` branch of `call_tool` (see `clean_text_body`). -/
def clean_text_branch (args : Args) : Except PyErr (List Char) :=
  match getArg args "text" (PyValue.str []) with
  | PyValue.str text => clean_text_body text (getArg args "mode" (PyValue.str "basic".toList))
  | _ => Except.error PyErr.attributeError

/-! ## Tool `base64_converter` -/

/-- `base64.b64encode(text.encode('utf-8')).decode('utf-8')`: the Base64
text of the UTF-8 bytes (all output characters are ASCII, so the final
`decode` is the identity on them). -/
def b64EncodeText (text : List Char) : List Char :=
  b64encodeBytes (utf8Encode text)

/-- `base64.b64decode(text).decode('utf-8')`: the decode path of the
branch, errors as `Except.error`. -/
def base64DecodeCore (text : List Char) : Except PyErr (List Char) :=
  match pyB64decode text with
  | Except.error e => Except.error e
  | Except.ok bs =>
    match utf8Decode bs with
    | none => Except.error PyErr.unicodeDecode
    | some s => Except.ok s

/-- Rendering of `str(e)` for the exceptions the Base64 branch catches
(dynamic payload details such as offending positions are abbreviated). -/
def pyErrStr : PyErr → List Char
  | PyErr.attributeError => "object has no attribute \x27encode\x27".toList
  | PyErr.typeError => "argument should be a bytes-like object or ASCII string".toList
  | PyErr.valueErrorAscii => "string argument should contain only ASCII characters".toList
  | PyErr.binascii BinErr.padding => "Incorrect padding".toList
  | PyErr.binascii BinErr.leftover =>
    "Invalid base64-encoded string: number of data characters cannot be 1 more than a multiple of 4".toList
  | PyErr.unicodeDecode => "\x27utf-8\x27 codec can\x27t decode data".toList

/-- The `except` clause of the Base64 branch. -/
def b64OpError (e : PyErr) : List Char :=
  "❌ Error with Base64 operation: ".toList ++ pyErrStr e

/-- The `base64_converter` encode-path f-string. -/
def mkB64EncodeMsg (text encoded : List Char) : List Char :=
  "✅ **BASE64 ENCODED**\n\n**Original:** ".toList ++ echo100 text
  ++ "\n**Encoded:** ".toList ++ encoded
  ++ "\n\n📋 **Copy the encoded text above!**".toList

/-- The `base64_converter` decode-path f-string. -/
def mkB64DecodeMsg (text decoded : List Char) : List Char :=
  "✅ **BASE64 DECODED**\n\n**Encoded:** ".toList ++ echo100 text
  ++ "\n**Decoded:** ".toList ++ decoded
  ++ "\n\n📋 **Copy the decoded text above!**".toList

/-- Result of the decode path including its `try`/`except`. -/
def base64DecodeResult (text : List Char) : List Char :=
  match base64DecodeCore text with
  | Except.ok decoded => mkB64DecodeMsg text decoded
  | Except.error e => b64OpError e

/-- The `base64_converter` branch of `call_tool`.  `operation.lower()` runs
before the `try` (raising on non-strings); everything else is inside it. -/
def base64_converter_body (op0 : List Char) (textV : PyValue) : Except PyErr (List Char) :=
  if pyLower op0 = "encode".toList then
    match textV with
    | PyValue.str text => Except.ok (mkB64EncodeMsg text (b64EncodeText text))
    | _ => Except.ok (b64OpError PyErr.attributeError)
  else if pyLower op0 = "decode".toList then
    match textV with
    | PyValue.str text => Except.ok (base64DecodeResult text)
    | _ => Except.ok (b64OpError PyErr.typeError)
  else Except.ok "❌ Invalid operation. Use \x27encode\x27 or \x27decode\x27".toList

/-- The `base64_converter` branch of `call_tool` (see
`base64_converter_body`). -/
def base64_converter_branch (args : Args) : Except PyErr (List Char) :=
  match getArg args "operation" (PyValue.str []) with
  | PyValue.str op0 => base64_converter_body op0 (getArg args "text" (PyValue.str []))
  | _ => Except.error PyErr.attributeError

/-! ## Tool `generate_password` -/

/-- `string.ascii_lowercase`. -/
def asciiLowercase : List Char := "abcdefghijklmnopqrstuvwxyz".toList

/-- `string.ascii_uppercase`. -/
def asciiUppercase : List Char := "ABCDEFGHIJKLMNOPQRSTUVWXYZ".toList

/-- `string.digits`. -/
def asciiDigits : List Char := "0123456789".toList

/-- The fixed symbol set of `generate_password`. -/
def passwordSymbols : List Char := "!@#$%^&*()_+-=[]\x7b\x7d|;:,.<>?".toList

/-- The four character classes after the toggles and the
ambiguous-character removal. -/
structure PoolParts where
  lowercase : List Char
  uppercase : List Char
  numbers : List Char
  symbols : List Char

/-- Character-class construction of `generate_password`: lowercase and
uppercase are unconditional; digits and symbols hang on their flags;
`exclude_ambiguous` removes `l`, `O`, `I`, `0`, `1` from their classes. -/
def gpPools (include_symbols include_numbers exclude_ambiguous : Bool) : PoolParts :=
  let lowercase := asciiLowercase
  let uppercase := asciiUppercase
  let numbers := if include_numbers then asciiDigits else []
  let symbols := if include_symbols then passwordSymbols else []
  if exclude_ambiguous then
    { lowercase := lowercase.filter (fun c => c ≠ 'l')
      uppercase := (uppercase.filter (fun c => c ≠ 'O')).filter (fun c => c ≠ 'I')
      numbers := (numbers.filter (fun c => c ≠ '0')).filter (fun c => c ≠ '1')
      symbols := symbols }
  else
    { lowercase := lowercase, uppercase := uppercase, numbers := numbers, symbols := symbols }

/-- `all_chars = lowercase + uppercase + numbers + symbols`. -/
def gpAllChars (include_symbols include_numbers exclude_ambiguous : Bool) : List Char :=
  let p := gpPools include_symbols include_numbers exclude_ambiguous
  p.lowercase ++ p.uppercase ++ p.numbers ++ p.symbols

/-- `''.join(secrets.choice(all_chars) for _ in range(length))` with the
random draws supplied by `env.choiceIdx`. -/
def genPassword (env : Env) (pool : List Char) (len : Nat) : List Char :=
  (List.range len).map (fun i => pool.getD (env.choiceIdx i % pool.length) 'a')

/-- `strength_levels`. -/
def strengthLevels : List (List Char) :=
  ["Very Weak".toList, "Weak".toList, "Fair".toList, "Good".toList, "Strong".toList]

/-- The `generate_password` success f-string. -/
def mkPasswordMsg (password strength : List Char) (length : Nat)
    (has_lower has_upper has_digit has_symbol : Bool) : List Char :=
  let contains : List (List Char) :=
    [if has_lower then some "lowercase".toList else none,
     if has_upper then some "uppercase".toList else none,
     if has_digit then some "numbers".toList else none,
     if has_symbol then some "symbols".toList else none].filterMap id
  "🔐 **PASSWORD GENERATED**\n\n**Password:** `".toList ++ password
  ++ "`\n\n🛡️ **Security Analysis:**\n• **Strength:** ".toList ++ strength
  ++ "\n• **Length:** ".toList ++ natDigits length
  ++ " characters\n• **Contains:** ".toList ++ List.intercalate ", ".toList contains
  ++ "\n\n⚠️ **Remember to store this password securely!**".toList

/-- Body of the `generate_password` branch once `length` is known to be an
integer (`True`/`False` count as `1`/`0` in the comparison). -/
def generate_password_body (env : Env) (args : Args) (length : Int) :
    Except PyErr (List Char) :=
  let include_symbols := pyTruthy (getArg args "include_symbols" (PyValue.bool true))
  let include_numbers := pyTruthy (getArg args "include_numbers" (PyValue.bool true))
  let exclude_ambiguous := pyTruthy (getArg args "exclude_ambiguous" (PyValue.bool false))
  if length < 8 || 50 < length then
    Except.ok "❌ Password length must be between 8 and 50 characters".toList
  else
    let parts := gpPools include_symbols include_numbers exclude_ambiguous
    let all_chars := parts.lowercase ++ parts.uppercase ++ parts.numbers ++ parts.symbols
    if all_chars = [] then
      Except.ok "❌ No characters available with current settings".toList
    else
      let password := genPassword env all_chars length.toNat
      let has_lower := password.any (fun c => parts.lowercase.contains c)
      let has_upper := password.any (fun c => parts.uppercase.contains c)
      let has_digit := password.any (fun c => parts.numbers.contains c)
      let has_symbol := password.any (fun c => parts.symbols.contains c)
      let score := (if has_lower then 1 else 0) + (if has_upper then 1 else 0)
        + (if has_digit then 1 else 0) + (if has_symbol then 1 else 0)
      let strength := strengthLevels.getD (min score 4) []
      Except.ok
        (mkPasswordMsg password strength length.toNat has_lower has_upper has_digit has_symbol)

/-- The `generate_password` branch of `call_tool`.  A string `length`
raises a `TypeError` at `length < 8` that nothing catches. -/
def generate_password_branch (env : Env) (args : Args) : Except PyErr (List Char) :=
  match getArg args "length" (PyValue.int 16) with
  | PyValue.int n => generate_password_body env args n
  | PyValue.bool b => generate_password_body env args (if b then 1 else 0)
  | PyValue.str _ => Except.error PyErr.typeError

/-! ## Tool `extract_data` -/

/-- `'-'.join(match)` for a three-group phone match. -/
def joinDash (t : List Char × List Char × List Char) : List Char :=
  t.1 ++ '-' :: t.2.1 ++ '-' :: t.2.2

/-- The per-category emoji lookup. -/
def categoryEmoji (k : String) : List Char :=
  if k = "emails" then "📧".toList
  else if k = "urls" then "🔗".toList
  else if k = "phones" then "📱".toList
  else "📄".toList

/-- One category block of the `extract_data` output. -/
def mkCategoryBlock (k : String) (items : List (List Char)) : List Char :=
  "\n".toList ++ categoryEmoji k ++ " **".toList ++ pyUpper k.toList
  ++ "** (".toList ++ natDigits items.length ++ " found):\n".toList
  ++ ((items.take 10).map (fun it => "• ".toList ++ it ++ "\n".toList)).flatten
  ++ (if 10 < items.length then
        "• ... and ".toList ++ natDigits (items.length - 10) ++ " more\n".toList
      else [])

/-- The `extract_data` output for a non-empty result set. -/
def mkExtractMsg (results : List (String × List (List Char))) : List Char :=
  let total := (results.map (fun kv => kv.2.length)).sum
  "🔍 **EXTRACTED DATA**\n".toList
  ++ (results.map (fun kv => if kv.2.isEmpty then [] else mkCategoryBlock kv.1 kv.2)).flatten
  ++ "\n✅ **Total found:** ".toList ++ natDigits total ++ " items".toList

/-- Body of the `extract_data` handler once both arguments are known to be
strings; `list(set(..))` is modelled as `List.dedup` (the spec leaves the
set order unspecified). -/
def extract_data_body (env : Env) (text dt0 : List Char) : Except PyErr (List Char) :=
  let data_type := pyLower dt0
  if pyStrip text = [] then Except.ok "❌ Text is empty.".toList
  else
    let results : List (String × List (List Char)) :=
      (if data_type = "emails".toList || data_type = "all".toList then
        [("emails", (env.findallEmails text).dedup)] else [])
      ++ (if data_type = "urls".toList || data_type = "all".toList then
        [("urls", (env.findallUrls text).dedup)] else [])
      ++ (if data_type = "phones".toList || data_type = "all".toList then
        [("phones",
          (((env.findallPhonesA text).map joinDash) ++ env.findallPhonesB text).dedup)]
        else [])
    if results.all (fun kv => kv.2.isEmpty) then
      Except.ok ("❌ No ".toList ++ data_type ++ " found in the text.".toList)
    else Except.ok (mkExtractMsg results)

/-- The `extract_data` branch of `call_tool`: argument extraction in source
order (`data_type.lower()` raises first on non-strings, then
`text.strip()`), then the body above. -/
def extract_data_branch (env : Env) (args : Args) : Except PyErr (List Char) :=
  match getArg args "data_type" (PyValue.str []) with
  | PyValue.str dt0 =>
    match getArg args "text" (PyValue.str []) with
    | PyValue.str text => extract_data_body env text dt0
    | _ => Except.error PyErr.attributeError
  | _ => Except.error PyErr.attributeError

/-! ## The dispatcher -/

/-- `call_tool`: dispatch on the tool name; unknown names get a reported
error string.  `Except.error` marks an exception escaping the handler. -/
def call_tool (env : Env) (name : String) (args : Args) : Except PyErr (List Char) :=
  if name = "validate" then validate_branch env args
  else if name = "count_text" then count_text_branch args
  else if name = "convert_case" then convert_case_branch args
  else if name = "clean_text" then clean_text_branch args
  else if name = "base64_converter" then base64_converter_branch args
  else if name = "generate_password" then generate_password_branch env args
  else if name = "extract_data" then extract_data_branch env args
  else Except.ok ("❌ Unknown tool: ".toList ++ name.toList)

/-- A concrete environment (the `app.py` phone number, trivial random
source and matchers) used for closed instances. -/
def defaultEnv : Env where
  AUTH_TOKEN := "text_utils_secret".toList
  MY_NUMBER := "919339615464".toList
  choiceIdx := fun _ => 0
  findallEmails := fun _ => []
  findallUrls := fun _ => []
  findallPhonesA := fun _ => []
  findallPhonesB := fun _ => []

/-- The declared input-schema types of the fields each handler actually
consults: string `token`, string `text`, string `case_type` / `mode` /
`operation` / `data_type`, integer `length`, boolean toggles. -/
def schemaTyped (name : String) (args : Args) : Bool :=
  if name = "validate" then (getArg args "token" (PyValue.str [])).isStr
  else if name = "count_text" then (getArg args "text" (PyValue.str [])).isStr
  else if name = "convert_case" then
    (getArg args "text" (PyValue.str [])).isStr &&
      (getArg args "case_type" (PyValue.str [])).isStr
  else if name = "clean_text" then
    (getArg args "text" (PyValue.str [])).isStr &&
      (getArg args "mode" (PyValue.str "basic".toList)).isStr
  else if name = "base64_converter" then
    (getArg args "text" (PyValue.str [])).isStr &&
      (getArg args "operation" (PyValue.str [])).isStr
  else if name = "generate_password" then (getArg args "length" (PyValue.int 16)).isInt
  else if name = "extract_data" then
    (getArg args "text" (PyValue.str [])).isStr &&
      (getArg args "data_type" (PyValue.str [])).isStr
  else true

/-! ## Lemmas about stripping and splitting -/

theorem dropWhileEnd_eq_nil_iff (p : Char → Bool) (cs : List Char) :
    dropWhileEnd p cs = [] ↔ cs.all p := by
  induction cs with
  | nil => simp [dropWhileEnd]
  | cons c rest ih =>
    by_cases hr : dropWhileEnd p rest = []
    · by_cases hp : p c
      · simp [dropWhileEnd, hr, hp, ih.mp hr]
      · simp [dropWhileEnd, hr, hp]
    · have hra : ¬ rest.all p = true := fun hall => hr (ih.mpr hall)
      simp [dropWhileEnd, hr, hra]

theorem pyStrip_eq_nil_iff (cs : List Char) : pyStrip cs = [] ↔ cs.all isPySpace := by
  unfold pyStrip
  rw [dropWhileEnd_eq_nil_iff]
  constructor
  · intro h
    have hsplit := List.takeWhile_append_dropWhile (p := isPySpace) (l := cs)
    have htake : (cs.takeWhile isPySpace).all isPySpace := by
      rw [List.all_eq_true]
      intro x hx
      exact List.mem_takeWhile_imp hx
    rw [← hsplit, List.all_append]
    simp [htake, h]
  · intro h
    rw [List.all_eq_true] at h ⊢
    intro x hx
    exact h x (List.dropWhile_sublist isPySpace |>.mem hx)

theorem pyStrip_ne_nil_of_ne (cs : List Char) (h : pyStrip cs ≠ []) : cs ≠ [] := by
  intro hnil
  exact h (by simp [hnil, pyStrip, dropWhileEnd, List.dropWhile])

theorem splitOnNN_ne_nil (cs : List Char) : splitOnNN cs ≠ [] := by
  rw [splitOnNN.eq_def]
  split
  · simp
  · simp
  · split <;> simp

/-- Rejoin the chunks of `splitOnNN` with the two-newline separator. -/
def joinNN : List (List Char) → List Char
  | [] => []
  | q :: rest =>
    match rest with
    | [] => q
    | _ :: _ => q ++ '\n' :: '\n' :: joinNN rest

theorem joinNN_splitOnNN (cs : List Char) : joinNN (splitOnNN cs) = cs := by
  induction cs using splitOnNN.induct with
  | case1 => rfl
  | case2 rest ih =>
    rcases hh : splitOnNN rest with _ | ⟨hd, tl⟩
    · exact absurd hh (splitOnNN_ne_nil rest)
    · rw [hh] at ih
      have h2 : splitOnNN ('\n' :: '\n' :: rest) = [] :: splitOnNN rest := rfl
      rw [h2, hh]
      show '\n' :: '\n' :: joinNN (hd :: tl) = '\n' :: '\n' :: rest
      rw [ih]
  | case3 c rest hcond hnil ih => exact absurd hnil (splitOnNN_ne_nil rest)
  | case4 c rest hcond hd tl hh ih =>
    rw [hh] at ih
    rw [splitOnNN.eq_def]
    split
    · rename_i heq
      simp at heq
    · rename_i rest1 heq
      injection heq with hc hr
      exact (hcond rest1 hc hr).elim
    · rename_i c' rest' heq
      injection heq with hc hr
      subst hc
      subst hr
      rw [hh]
      rcases tl with _ | ⟨t1, t2⟩
      · show c :: hd = c :: rest
        rw [show joinNN [hd] = hd from rfl] at ih
        rw [ih]
      · show (c :: hd) ++ '\n' :: '\n' :: joinNN (t1 :: t2) = c :: rest
        rw [show joinNN (hd :: t1 :: t2) = hd ++ '\n' :: '\n' :: joinNN (t1 :: t2) from rfl] at ih
        rw [List.cons_append, ih]

theorem joinNN_all_space (l : List (List Char))
    (h : ∀ q ∈ l, q.all isPySpace) : (joinNN l).all isPySpace := by
  induction l with
  | nil => simp [joinNN]
  | cons q rest ih =>
    rcases rest with _ | ⟨r1, r2⟩
    · simpa [joinNN] using h q (by simp)
    · have hq := h q (by simp)
      have hrest : ∀ p ∈ r1 :: r2, p.all isPySpace := by
        intro p hp
        exact h p (by simp [hp])
      have hj := ih hrest
      rw [show joinNN (q :: r1 :: r2) = q ++ '\n' :: '\n' :: joinNN (r1 :: r2) from rfl]
      rw [List.all_eq_true] at hq hj ⊢
      intro x hx
      rcases List.mem_append.mp hx with h1 | h1
      · exact hq x h1
      · rcases List.mem_cons.mp h1 with rfl | h2
        · decide
        · rcases List.mem_cons.mp h2 with rfl | h3
          · decide
          · exact hj x h3

theorem splitOnNN_all_space (cs : List Char)
    (h : ∀ q ∈ splitOnNN cs, q.all isPySpace) : cs.all isPySpace := by
  have hj := joinNN_splitOnNN cs
  rw [← hj]
  exact joinNN_all_space _ h

/-! ## Claim C5: paragraph counting -/

/-- C5 (amended): for every non-blank input text, `count_text`'s paragraph
count equals the number of non-blank chunks of the literal `\n\n` split,
and is at least 1; the single-newline fallback can only trigger on
all-whitespace text, which the emptiness guard already rejected, so a
two-line text with no blank line yields paragraph count 1, not 2. -/
theorem C5_paragraphs_double_newline_split (text : List Char) (h : pyStrip text ≠ []) :
    (countTextStats text).paragraphs
      = ((splitOnNN text).filter (fun q => !(pyStrip q).isEmpty)).length ∧
    1 ≤ (countTextStats text).paragraphs := by
  have hP0 : ((splitOnNN text).filter (fun q => !(pyStrip q).isEmpty)).length ≠ 0 := by
    intro h0
    rw [List.length_eq_zero] at h0
    have hall : ∀ q ∈ splitOnNN text, q.all isPySpace := by
      intro q hq
      have hf := List.filter_eq_nil_iff.mp h0 q hq
      rw [← pyStrip_eq_nil_iff]
      simpa [List.isEmpty_iff] using hf
    exact h ((pyStrip_eq_nil_iff text).mpr (splitOnNN_all_space text hall))
  constructor
  · simp [countTextStats, hP0]
  · simp only [countTextStats]
    rw [if_neg hP0]
    omega

/-- C5 witness instance at a concrete two-paragraph text. -/
theorem C5_witness :
    (countTextStats ("para one\n\npara two".toList)).paragraphs
      = ((splitOnNN ("para one\n\npara two".toList)).filter
          (fun q => !(pyStrip q).isEmpty)).length ∧
    1 ≤ (countTextStats ("para one\n\npara two".toList)).paragraphs :=
  C5_paragraphs_double_newline_split ("para one\n\npara two".toList) (by decide)

/-- C5 counterexample: on the two-line text `line1\nline2` (no blank-line
separator) the paragraph count is 1, while the number of non-blank lines is
2, so the claimed fallback to the non-blank-line count does not happen. -/
theorem C5_counterexample :
    (countTextStats ("line1\nline2".toList)).paragraphs = 1 ∧
    ((splitOnNL ("line1\nline2".toList)).filter (fun q => !(pyStrip q).isEmpty)).length = 2 := by
  decide

/-! ## Claim C7: the concrete `count_text` example -/

/-- C7 counterexample: on `"Hello world. This is great!"` the handler
computes words = 5 and sentences = 2 as claimed, but the
characters-with-spaces count is the string's length 27, not 28. -/
theorem C7_counterexample :
    (countTextStats ("Hello world. This is great!".toList)).words = 5 ∧
    (countTextStats ("Hello world. This is great!".toList)).sentences = 2 ∧
    (countTextStats ("Hello world. This is great!".toList)).chars_with_spaces = 27 ∧
    (countTextStats ("Hello world. This is great!".toList)).chars_with_spaces ≠ 28 := by
  decide

/-- C7 (amended): `count_text` on `"Hello world. This is great!"` reports
words = 5, sentences = 2 and characters-with-spaces = 27. -/
theorem C7_hello_world_counts :
    (countTextStats ("Hello world. This is great!".toList)).words = 5 ∧
    (countTextStats ("Hello world. This is great!".toList)).sentences = 2 ∧
    (countTextStats ("Hello world. This is great!".toList)).chars_with_spaces = 27 := by
  decide

/-! ## Claim C10: positive denominators -/

/-- C10: for input past the non-empty check, the three division
denominators of `count_text` (`max(sentences, 1)`, `max(words, 1)`) and of
`clean_text` (the original length `len(text)`) are strictly positive. -/
theorem C10_denominators_positive (text : List Char) (h : pyStrip text ≠ []) :
    0 < max (countTextStats text).sentences 1 ∧
    0 < max (countTextStats text).words 1 ∧
    0 < text.length := by
  refine ⟨?_, ?_, ?_⟩
  · exact Nat.lt_of_lt_of_le Nat.one_pos (Nat.le_max_right _ 1)
  · exact Nat.lt_of_lt_of_le Nat.one_pos (Nat.le_max_right _ 1)
  · have hne := pyStrip_ne_nil_of_ne text h
    cases text with
    | nil => exact absurd rfl hne
    | cons a l => simp

/-- C10 witness instance at a concrete text. -/
theorem C10_witness :
    0 < max (countTextStats ("hi".toList)).sentences 1 ∧
    0 < max (countTextStats ("hi".toList)).words 1 ∧
    0 < ("hi".toList).length :=
  C10_denominators_positive ("hi".toList) (by decide)

/-! ## Claim C3: exact token validation -/

/-- C3: `validate` returns the configured identifier iff the provided token
equals the configured secret under exact (case-sensitive, untrimmed) string
equality, and returns the invalid-token error string otherwise.  The
configured identifier is assumed distinct from the fixed error string
`"Invalid token"` (a phone number in the deployed configuration). -/
theorem C3_validate_exact_equality (env : Env) (token : List Char)
    (hne : env.MY_NUMBER ≠ "Invalid token".toList) :
    (validate_branch env [("token", PyValue.str token)] = Except.ok env.MY_NUMBER
      ↔ token = env.AUTH_TOKEN) ∧
    (token ≠ env.AUTH_TOKEN →
      validate_branch env [("token", PyValue.str token)]
        = Except.ok ("Invalid token".toList)) := by
  have hb : validate_branch env [("token", PyValue.str token)]
      = Except.ok (if token = env.AUTH_TOKEN then env.MY_NUMBER
                   else "Invalid token".toList) := rfl
  constructor
  · rw [hb]
    by_cases ht : token = env.AUTH_TOKEN
    · simp [ht]
    · rw [if_neg ht]
      simp only [Except.ok.injEq]
      constructor
      · intro contra
        exact absurd contra.symm hne
      · intro contra
        exact absurd contra ht
  · intro ht
    rw [hb, if_neg ht]

/-- C3 witness instance: the default configuration with matching and
non-matching tokens. -/
theorem C3_witness :
    (validate_branch defaultEnv [("token", PyValue.str ("text_utils_secret".toList))]
        = Except.ok defaultEnv.MY_NUMBER
      ↔ ("text_utils_secret".toList) = defaultEnv.AUTH_TOKEN) ∧
    (("text_utils_secret".toList) ≠ defaultEnv.AUTH_TOKEN →
      validate_branch defaultEnv [("token", PyValue.str ("text_utils_secret".toList))]
        = Except.ok ("Invalid token".toList)) :=
  C3_validate_exact_equality defaultEnv ("text_utils_secret".toList) (by decide)

/-! ## Claim C4: the password character pool -/

/-- C4 counterexample: the letter classes have no toggle.  For every
combination of the three caller flags (`include_symbols`,
`include_numbers`, `exclude_ambiguous` — the only arguments the handler
reads) the pool still contains `a` and is non-empty, so no argument mapping
can toggle off all four classes and reach the empty-pool error. -/
theorem C4_counterexample :
    ([true, false].all fun s => [true, false].all fun n => [true, false].all fun e =>
      !(gpAllChars s n e).isEmpty && (gpAllChars s n e).contains 'a') = true := by
  decide

/-- C4 (amended): the pool is built from the four classes, but only digits
and symbols are toggleable (by `include_numbers` / `include_symbols`);
lowercase and uppercase letters are always included, so the pool is never
empty and the empty-pool error branch is unreachable. -/
theorem C4_pool_classes (s n e : Bool) :
    gpAllChars s n e ≠ [] ∧
    'a' ∈ gpAllChars s n e ∧
    'A' ∈ gpAllChars s n e ∧
    (('7' ∈ gpAllChars s n e) ↔ n = true) ∧
    (('!' ∈ gpAllChars s n e) ↔ s = true) := by
  cases s <;> cases n <;> cases e <;> decide

/-! ## Claim C9: unknown extraction selector -/

/-- C9 (amended): for non-blank text and a `data_type` outside
`emails`/`urls`/`phones`/`all` (after lowercasing), `extract_data` reports
the no-match error string `❌ No <data_type> found in the text.` — the
handler has no separate invalid-selector error. -/
theorem C9_unknown_data_type (env : Env) (text dt : List Char)
    (htext : pyStrip text ≠ [])
    (h1 : pyLower dt ≠ "emails".toList) (h2 : pyLower dt ≠ "urls".toList)
    (h3 : pyLower dt ≠ "phones".toList) (h4 : pyLower dt ≠ "all".toList) :
    extract_data_branch env [("text", PyValue.str text), ("data_type", PyValue.str dt)]
      = Except.ok ("❌ No ".toList ++ pyLower dt ++ " found in the text.".toList) := by
  show extract_data_body env text dt
      = Except.ok ("❌ No ".toList ++ pyLower dt ++ " found in the text.".toList)
  have h1' : pyLower dt ≠ ['e', 'm', 'a', 'i', 'l', 's'] := by simpa using h1
  have h2' : pyLower dt ≠ ['u', 'r', 'l', 's'] := by simpa using h2
  have h3' : pyLower dt ≠ ['p', 'h', 'o', 'n', 'e', 's'] := by simpa using h3
  have h4' : pyLower dt ≠ ['a', 'l', 'l'] := by simpa using h4
  unfold extract_data_body
  simp [htext, h1', h2', h3', h4']

/-- C9 witness instance: `data_type` `foo` on the text `hello`. -/
theorem C9_witness :
    extract_data_branch defaultEnv
        [("text", PyValue.str ("hello".toList)), ("data_type", PyValue.str ("foo".toList))]
      = Except.ok ("❌ No ".toList ++ pyLower ("foo".toList) ++ " found in the text.".toList) :=
  C9_unknown_data_type defaultEnv ("hello".toList) ("foo".toList)
    (by decide) (by decide) (by decide) (by decide) (by decide)

/-- C9 counterexample: on the unknown selector `foo` the handler's reply is
the no-match string `❌ No foo found in the text.`; it mentions neither
`Invalid` nor `Unknown`, so it is the no-match error of the taxonomy, not
an invalid/unknown-selector error. -/
theorem C9_counterexample :
    extract_data_branch defaultEnv
        [("text", PyValue.str ("hello".toList)), ("data_type", PyValue.str ("foo".toList))]
      = Except.ok ("❌ No foo found in the text.".toList) ∧
    ¬ List.IsInfix ("Invalid".toList) ("❌ No foo found in the text.".toList) ∧
    ¬ List.IsInfix ("Unknown".toList) ("❌ No foo found in the text.".toList) := by
  refine ⟨by decide, by decide, by decide⟩

/-! ## Character-level facts for the case transforms -/

theorem charToNat_ofNat (n : Nat) (h : n.isValidChar) : (Char.ofNat n).toNat = n := by
  simp only [Char.ofNat, h, dif_pos, Char.ofNatAux, Char.toNat]
  have hlt : n < 4294967296 := by
    rcases h with h | h
    · omega
    · omega
  simp [UInt32.toNat, UInt32.ofNat', Nat.mod_eq_of_lt hlt]

theorem toUpper_eq (c : Char) :
    Char.toUpper c = if c.toNat ≥ 97 ∧ c.toNat ≤ 122 then Char.ofNat (c.toNat - 32) else c :=
  rfl

theorem toLower_eq (c : Char) :
    Char.toLower c = if c.toNat ≥ 65 ∧ c.toNat ≤ 90 then Char.ofNat (c.toNat + 32) else c :=
  rfl

theorem toUpper_toNat_of_lower (c : Char) (h : 97 ≤ c.toNat ∧ c.toNat ≤ 122) :
    (Char.toUpper c).toNat = c.toNat - 32 := by
  rw [toUpper_eq, if_pos ⟨h.1, h.2⟩]
  exact charToNat_ofNat _ (Or.inl (by omega))

theorem toUpper_fixed (c : Char) (h : ¬(97 ≤ c.toNat ∧ c.toNat ≤ 122)) :
    Char.toUpper c = c := by
  rw [toUpper_eq, if_neg]
  exact fun hc => h ⟨hc.1, hc.2⟩

theorem toLower_toNat_of_upper (c : Char) (h : 65 ≤ c.toNat ∧ c.toNat ≤ 90) :
    (Char.toLower c).toNat = c.toNat + 32 := by
  rw [toLower_eq, if_pos ⟨h.1, h.2⟩]
  exact charToNat_ofNat _ (Or.inl (by omega))

theorem toLower_fixed (c : Char) (h : ¬(65 ≤ c.toNat ∧ c.toNat ≤ 90)) :
    Char.toLower c = c := by
  rw [toLower_eq, if_neg]
  exact fun hc => h ⟨hc.1, hc.2⟩

theorem toUpper_toUpper (c : Char) : (Char.toUpper c).toUpper = Char.toUpper c := by
  by_cases h : 97 ≤ c.toNat ∧ c.toNat ≤ 122
  · have h1 := toUpper_toNat_of_lower c h
    exact toUpper_fixed _ (by omega)
  · rw [toUpper_fixed c h, toUpper_fixed c h]

theorem toLower_toLower (c : Char) : (Char.toLower c).toLower = Char.toLower c := by
  by_cases h : 65 ≤ c.toNat ∧ c.toNat ≤ 90
  · have h1 := toLower_toNat_of_upper c h
    exact toLower_fixed _ (by omega)
  · rw [toLower_fixed c h, toLower_fixed c h]

theorem pyUpper_idem (cs : List Char) : pyUpper (pyUpper cs) = pyUpper cs := by
  unfold pyUpper
  rw [List.map_map]
  exact List.map_congr_left (fun c _ => toUpper_toUpper c)

theorem pyLower_idem (cs : List Char) : pyLower (pyLower cs) = pyLower cs := by
  unfold pyLower
  rw [List.map_map]
  exact List.map_congr_left (fun c _ => toLower_toLower c)

/-! ## Shape lemmas for the snake/kebab pipeline -/

/-- No two adjacent occurrences of the separator `t`. -/
def noAdj (t : Char) : List Char → Prop
  | [] => True
  | [_] => True
  | a :: b :: rest => ¬(a = t ∧ b = t) ∧ noAdj t (b :: rest)

theorem noAdj_tail (t : Char) (a : Char) (xs : List Char) (h : noAdj t (a :: xs)) :
    noAdj t xs := by
  cases xs with
  | nil => trivial
  | cons b rest => exact h.2

theorem collapseRun_cons_head (t a : Char) (rest : List Char) :
    ∃ tl, collapseRun t (a :: rest) = a :: tl := by
  induction rest generalizing a with
  | nil => exact ⟨[], rfl⟩
  | cons b rest' ih =>
    by_cases hab : a = t ∧ b = t
    · have hb : collapseRun t (a :: b :: rest') = collapseRun t (b :: rest') := by
        rw [collapseRun.eq_def]
        simp [hab.1, hab.2]
      rcases ih b with ⟨tl, htl⟩
      exact ⟨tl, by rw [hb, htl, hab.1, hab.2]⟩
    · have hb : collapseRun t (a :: b :: rest') = a :: collapseRun t (b :: rest') := by
        rw [collapseRun.eq_def]
        rcases Decidable.not_and_iff_or_not.mp hab with h | h
        · simp [h]
        · simp [h]
      exact ⟨collapseRun t (b :: rest'), hb⟩

theorem noAdj_collapseRun (t : Char) (cs : List Char) : noAdj t (collapseRun t cs) := by
  induction cs using collapseRun.induct t with
  | case1 => trivial
  | case2 c => trivial
  | case3 a b rest hab ih =>
    have hb : collapseRun t (a :: b :: rest) = collapseRun t (b :: rest) := by
      rw [collapseRun.eq_def]
      simp only [Bool.and_eq_true, decide_eq_true_eq] at hab
      simp [hab.1, hab.2]
    rw [hb]
    exact ih
  | case4 a b rest hab ih =>
    have hb : collapseRun t (a :: b :: rest) = a :: collapseRun t (b :: rest) := by
      rw [collapseRun.eq_def]
      simp only [Bool.and_eq_true, decide_eq_true_eq] at hab
      rcases Decidable.not_and_iff_or_not.mp hab with h | h
      · simp [h]
      · simp [h]
    rw [hb]
    rcases collapseRun_cons_head t b rest with ⟨tl, htl⟩
    rw [htl]
    rw [htl] at ih
    constructor
    · simp only [Bool.and_eq_true, decide_eq_true_eq] at hab
      exact hab
    · exact ih

theorem collapseRun_eq_self (t : Char) (cs : List Char) (h : noAdj t cs) :
    collapseRun t cs = cs := by
  induction cs with
  | nil => rfl
  | cons a rest ih =>
    cases rest with
    | nil => rfl
    | cons b rest' =>
      have hab : ¬(a = t ∧ b = t) := h.1
      have hb : collapseRun t (a :: b :: rest') = a :: collapseRun t (b :: rest') := by
        rw [collapseRun.eq_def]
        rcases Decidable.not_and_iff_or_not.mp hab with hx | hx
        · simp [hx]
        · simp [hx]
      rw [hb, ih h.2]

theorem noAdj_dropWhile (t : Char) (p : Char → Bool) (cs : List Char) (h : noAdj t cs) :
    noAdj t (cs.dropWhile p) := by
  induction cs with
  | nil => trivial
  | cons c rest ih =>
    rw [List.dropWhile_cons]
    by_cases hp : p c
    · simp only [hp, if_true]
      exact ih (noAdj_tail t c rest h)
    · simp only [hp, if_false]
      exact h

theorem dropWhileEnd_cons_shape (p : Char → Bool) (x : Char) (xs : List Char) :
    dropWhileEnd p (x :: xs) = [] ∨ dropWhileEnd p (x :: xs) = x :: dropWhileEnd p xs := by
  rw [dropWhileEnd]
  by_cases hc : dropWhileEnd p xs = [] ∧ p x
  · left
    simp [hc.1, hc.2]
  · right
    rcases Decidable.not_and_iff_or_not.mp hc with h | h
    · simp [h]
    · simp [h]

theorem noAdj_dropWhileEnd (t : Char) (p : Char → Bool) (cs : List Char) (h : noAdj t cs) :
    noAdj t (dropWhileEnd p cs) := by
  induction cs with
  | nil => trivial
  | cons c rest ih =>
    rcases dropWhileEnd_cons_shape p c rest with hs | hs
    · rw [hs]
      trivial
    · rw [hs]
      have hr := ih (noAdj_tail t c rest h)
      cases hrest : rest with
      | nil =>
        subst hrest
        have : dropWhileEnd p ([] : List Char) = [] := rfl
        rw [this]
        trivial
      | cons x xs =>
        subst hrest
        rcases dropWhileEnd_cons_shape p x xs with h2 | h2
        · rw [h2]
          trivial
        · rw [h2]
          rw [h2] at hr
          exact ⟨fun hct => h.1 ⟨hct.1, hct.2⟩, hr⟩

theorem char_eq_of_toNat (c d : Char) (h : c.toNat = d.toNat) : c = d :=
  Char.ext (UInt32.ext (by simpa using h))

theorem isAsciiAlnum_iff (c : Char) :
    isAsciiAlnum c = true ↔
      (65 ≤ c.toNat ∧ c.toNat ≤ 90) ∨ (97 ≤ c.toNat ∧ c.toNat ≤ 122) ∨
      (48 ≤ c.toNat ∧ c.toNat ≤ 57) := by
  simp only [isAsciiAlnum, Bool.or_eq_true, Bool.and_eq_true, Char.isAlpha, Char.isUpper,
    Char.isLower, Char.isDigit, decide_eq_true_eq]
  constructor
  · rintro ((h | h) | h)
    · exact Or.inl h
    · exact Or.inr (Or.inl h)
    · exact Or.inr (Or.inr h)
  · rintro (h | h | h)
    · exact Or.inl (Or.inl h)
    · exact Or.inl (Or.inr h)
    · exact Or.inr h

theorem isPySpace_iff (c : Char) :
    isPySpace c = true ↔
      c.toNat = 32 ∨ c.toNat = 9 ∨ c.toNat = 10 ∨ c.toNat = 13 ∨
      c.toNat = 11 ∨ c.toNat = 12 := by
  constructor
  · intro h
    simp only [isPySpace, Bool.or_eq_true, decide_eq_true_eq] at h
    rcases h with ((((h | h) | h) | h) | h) | h <;> rw [h] <;> simp
  · intro h
    simp only [isPySpace, Bool.or_eq_true, decide_eq_true_eq]
    rcases h with h | h | h | h | h | h
    · exact Or.inl (Or.inl (Or.inl (Or.inl (Or.inl (char_eq_of_toNat _ _ h)))))
    · exact Or.inl (Or.inl (Or.inl (Or.inl (Or.inr (char_eq_of_toNat _ _ h)))))
    · exact Or.inl (Or.inl (Or.inl (Or.inr (char_eq_of_toNat _ _ h))))
    · exact Or.inl (Or.inl (Or.inr (char_eq_of_toNat _ _ h)))
    · exact Or.inl (Or.inr (char_eq_of_toNat _ _ h))
    · exact Or.inr (char_eq_of_toNat _ _ h)

/-! ## Identity lemmas for strips on already-clean strings -/

theorem dropWhile_eq_self_of_head (p : Char → Bool) (cs : List Char)
    (h : ∀ a, cs.head? = some a → p a = false) : cs.dropWhile p = cs := by
  cases cs with
  | nil => rfl
  | cons c rest =>
    rw [List.dropWhile_cons, h c rfl]
    simp

theorem dropWhileEnd_eq_self_of_last (p : Char → Bool) (cs : List Char)
    (h : ∀ a, cs.getLast? = some a → p a = false) : dropWhileEnd p cs = cs := by
  induction cs with
  | nil => rfl
  | cons c rest ih =>
    cases rest with
    | nil =>
      have hc := h c rfl
      rw [dropWhileEnd]
      simp [hc, dropWhileEnd]
    | cons x xs =>
      have hr : dropWhileEnd p (x :: xs) = x :: xs := by
        apply ih
        intro a ha
        exact h a (by rw [List.getLast?_cons_cons]; exact ha)
      rw [dropWhileEnd, hr]
      simp

theorem dropWhile_head_false (p : Char → Bool) (cs : List Char) :
    ∀ a, (cs.dropWhile p).head? = some a → p a = false := by
  induction cs with
  | nil => intro a ha; simp at ha
  | cons c rest ih =>
    intro a ha
    rw [List.dropWhile_cons] at ha
    by_cases hp : p c
    · rw [if_pos hp] at ha
      exact ih a ha
    · rw [if_neg hp] at ha
      simp only [List.head?_cons, Option.some.injEq] at ha
      rw [← ha]
      exact Bool.eq_false_iff.mpr hp

theorem dropWhileEnd_last_false (p : Char → Bool) (cs : List Char) :
    ∀ a, (dropWhileEnd p cs).getLast? = some a → p a = false := by
  induction cs with
  | nil => intro a ha; simp [dropWhileEnd] at ha
  | cons c rest ih =>
    intro a ha
    rw [dropWhileEnd] at ha
    by_cases hcond : dropWhileEnd p rest = [] ∧ p c
    · simp [hcond.1, hcond.2] at ha
    · by_cases hr : dropWhileEnd p rest = []
      · have hpc : p c = false := by
          rcases Decidable.not_and_iff_or_not.mp hcond with h1 | h1
          · exact absurd hr h1
          · exact Bool.eq_false_iff.mpr h1
        rw [hr] at ha
        simp only [hpc, Bool.and_false, if_neg] at ha
        simp at ha
        subst ha
        exact hpc
      · rcases List.exists_cons_of_ne_nil hr with ⟨y, ys, hys⟩
        have hcond2 : (decide (dropWhileEnd p rest = []) && p c) = false := by
          simp [hr]
        rw [hcond2] at ha
        simp only [Bool.false_eq_true, if_false] at ha
        rw [hys, List.getLast?_cons_cons] at ha
        exact ih a (by rw [hys]; exact ha)

theorem dropWhileEnd_head_eq (p : Char → Bool) (cs : List Char)
    (hne : dropWhileEnd p cs ≠ []) : (dropWhileEnd p cs).head? = cs.head? := by
  cases cs with
  | nil => rfl
  | cons c rest =>
    rcases dropWhileEnd_cons_shape p c rest with hs | hs
    · exact absurd hs hne
    · rw [hs]
      rfl

theorem dropWhile_eq_self_of_all (p : Char → Bool) (cs : List Char)
    (h : ∀ c ∈ cs, p c = false) : cs.dropWhile p = cs := by
  cases cs with
  | nil => rfl
  | cons c rest =>
    rw [List.dropWhile_cons, h c (List.mem_cons_self c rest)]
    simp

theorem dropWhileEnd_eq_self_of_all (p : Char → Bool) (cs : List Char)
    (h : ∀ c ∈ cs, p c = false) : dropWhileEnd p cs = cs := by
  induction cs with
  | nil => rfl
  | cons c rest ih =>
    have hr : dropWhileEnd p rest = rest := ih (fun d hd => h d (List.mem_cons_of_mem c hd))
    rw [dropWhileEnd, hr]
    cases rest with
    | nil => simp [h c (List.mem_cons_self c [])]
    | cons x xs => simp

theorem collapseRun_sublist (t : Char) (cs : List Char) : List.Sublist (collapseRun t cs) cs := by
  induction cs using collapseRun.induct t with
  | case1 => exact List.Sublist.refl _
  | case2 c => exact List.Sublist.refl _
  | case3 a b rest hab ih =>
    simp only [Bool.and_eq_true, decide_eq_true_eq] at hab
    have hb : collapseRun t (a :: b :: rest) = collapseRun t (b :: rest) := by
      rw [collapseRun.eq_def]
      simp [hab.1, hab.2]
    rw [hb]
    exact List.Sublist.cons a ih
  | case4 a b rest hab ih =>
    simp only [Bool.and_eq_true, decide_eq_true_eq] at hab
    have hb : collapseRun t (a :: b :: rest) = a :: collapseRun t (b :: rest) := by
      rw [collapseRun.eq_def]
      rcases Decidable.not_and_iff_or_not.mp hab with h | h
      · simp [h]
      · simp [h]
    rw [hb]
    exact List.Sublist.cons₂ a ih

theorem dropWhileEnd_sublist (p : Char → Bool) (cs : List Char) :
    List.Sublist (dropWhileEnd p cs) cs := by
  induction cs with
  | nil => exact List.Sublist.refl _
  | cons c rest ih =>
    rcases dropWhileEnd_cons_shape p c rest with hs | hs
    · rw [hs]
      exact List.nil_sublist _
    · rw [hs]
      exact List.Sublist.cons₂ c ih

/-! ## The snake/kebab output shape and idempotence -/

/-- Characters that can appear in a snake/kebab result: lowercase letters,
digits, or the separator. -/
def snakeOutChar (sep c : Char) : Prop :=
  (97 ≤ c.toNat ∧ c.toNat ≤ 122) ∨ (48 ≤ c.toNat ∧ c.toNat ≤ 57) ∨ c = sep

theorem sepCase_mem (sep : Char) (hsep : ¬(65 ≤ sep.toNat ∧ sep.toNat ≤ 90))
    (text : List Char) : ∀ c ∈ sepCase sep text, snakeOutChar sep c := by
  intro c hc
  unfold sepCase at hc
  have hc2 := (dropWhileEnd_sublist _ _).subset hc
  have hc3 := (List.dropWhile_sublist _).subset hc2
  have hc4 := (collapseRun_sublist _ _).subset hc3
  unfold pyLower at hc4
  rw [List.mem_map] at hc4
  rcases hc4 with ⟨d, hd, hdc⟩
  rw [List.mem_map] at hd
  rcases hd with ⟨e, he, hed⟩
  by_cases halnum : isAsciiAlnum e
  · rw [if_pos halnum] at hed
    subst hed
    rcases (isAsciiAlnum_iff e).mp halnum with hr | hr | hr
    · left
      rw [← hdc]
      have := toLower_toNat_of_upper e hr
      omega
    · left
      rw [← hdc, toLower_fixed e (by omega)]
      exact hr
    · right; left
      rw [← hdc, toLower_fixed e (by omega)]
      exact hr
  · rw [if_neg halnum] at hed
    subst hed
    right; right
    rw [← hdc, toLower_fixed _ hsep]

theorem sepCase_noAdj (sep : Char) (text : List Char) : noAdj sep (sepCase sep text) := by
  unfold sepCase pyStripChar
  exact noAdj_dropWhileEnd _ _ _ (noAdj_dropWhile _ _ _ (noAdj_collapseRun _ _))

theorem sepCase_head_ne (sep : Char) (text : List Char) :
    ∀ a, (sepCase sep text).head? = some a → a ≠ sep := by
  intro a ha
  have hne : sepCase sep text ≠ [] := by
    intro h0
    rw [h0] at ha
    simp at ha
  unfold sepCase pyStripChar at ha hne
  rw [dropWhileEnd_head_eq _ _ hne] at ha
  have := dropWhile_head_false (fun x => x = sep) _ a ha
  simpa using this

theorem sepCase_last_ne (sep : Char) (text : List Char) :
    ∀ a, (sepCase sep text).getLast? = some a → a ≠ sep := by
  intro a ha
  unfold sepCase pyStripChar at ha
  have := dropWhileEnd_last_false (fun x => x = sep) _ a ha
  simpa using this

theorem sepCase_idem (sep : Char)
    (h2 : isPySpace sep = false)
    (h3 : ¬(65 ≤ sep.toNat ∧ sep.toNat ≤ 90)) (text : List Char) :
    sepCase sep (sepCase sep text) = sepCase sep text := by
  have hmem := sepCase_mem sep h3 text
  have hnospace : ∀ c ∈ sepCase sep text, isPySpace c = false := by
    intro c hc
    rcases hmem c hc with h | h | h
    · rw [Bool.eq_false_iff]
      intro hsp
      rw [isPySpace_iff] at hsp
      omega
    · rw [Bool.eq_false_iff]
      intro hsp
      rw [isPySpace_iff] at hsp
      omega
    · rw [h]
      exact h2
  have hstep1 : pyStrip (sepCase sep text) = sepCase sep text := by
    unfold pyStrip
    rw [dropWhile_eq_self_of_all _ _ hnospace]
    exact dropWhileEnd_eq_self_of_all _ _ hnospace
  have hstep2 : (sepCase sep text).map (fun c => if c = ' ' then sep else c)
      = sepCase sep text := by
    conv_rhs => rw [← List.map_id (sepCase sep text)]
    apply List.map_congr_left
    intro c hc
    have hcs : c ≠ ' ' := by
      intro h0
      have := hnospace c hc
      rw [h0] at this
      simp [isPySpace] at this
    rw [if_neg hcs]
    rfl
  have hstep3 : (sepCase sep text).map (fun c => if isAsciiAlnum c then c else sep)
      = sepCase sep text := by
    conv_rhs => rw [← List.map_id (sepCase sep text)]
    apply List.map_congr_left
    intro c hc
    by_cases halnum : isAsciiAlnum c
    · rw [if_pos halnum]
      rfl
    · rw [if_neg halnum]
      rcases hmem c hc with h | h | h
      · exact absurd ((isAsciiAlnum_iff c).mpr (Or.inr (Or.inl h))) halnum
      · exact absurd ((isAsciiAlnum_iff c).mpr (Or.inr (Or.inr h))) halnum
      · rw [h]
        rfl
  have hstep4 : pyLower (sepCase sep text) = sepCase sep text := by
    unfold pyLower
    conv_rhs => rw [← List.map_id (sepCase sep text)]
    apply List.map_congr_left
    intro c hc
    rcases hmem c hc with h | h | h
    · exact toLower_fixed c (by omega)
    · exact toLower_fixed c (by omega)
    · rw [h]
      exact toLower_fixed sep h3
  have hstep5 : collapseRun sep (sepCase sep text) = sepCase sep text :=
    collapseRun_eq_self sep _ (sepCase_noAdj sep text)
  have hstep6 : pyStripChar sep (sepCase sep text) = sepCase sep text := by
    unfold pyStripChar
    have hdw : (sepCase sep text).dropWhile (fun x => x = sep) = sepCase sep text := by
      apply dropWhile_eq_self_of_head
      intro a ha
      simpa using sepCase_head_ne sep text a ha
    rw [hdw]
    apply dropWhileEnd_eq_self_of_last
    intro a ha
    simpa using sepCase_last_ne sep text a ha
  show pyStripChar sep (collapseRun sep (pyLower
    (((pyStrip (sepCase sep text)).map (fun c => if c = ' ' then sep else c)).map
      (fun c => if isAsciiAlnum c then c else sep)))) = sepCase sep text
  rw [hstep1, hstep2, hstep3, hstep4, hstep5, hstep6]

/-! ## Claim C8: idempotence of upper/lower/snake/kebab -/

/-- C8: the four `convert_case` transforms `upper`, `lower`, `snake` and
`kebab` are idempotent: applying any of them twice equals applying it
once (stated for every input text, which subsumes the non-empty inputs the
handler accepts). -/
theorem C8_case_transforms_idempotent (text : List Char) :
    pyUpper (pyUpper text) = pyUpper text ∧
    pyLower (pyLower text) = pyLower text ∧
    snakeCase (snakeCase text) = snakeCase text ∧
    kebabCase (kebabCase text) = kebabCase text := by
  refine ⟨pyUpper_idem text, pyLower_idem text, ?_, ?_⟩
  · unfold snakeCase
    exact sepCase_idem '_' (by decide) (by decide) text
  · unfold kebabCase
    exact sepCase_idem '-' (by decide) (by decide) text

/-! ## Base64 round-trip lemmas -/

theorem b64_fin : ∀ i : Fin 64,
    b64value (b64char i.val) = some i.val ∧ ¬(b64char i.val = '=') ∧
      (b64char i.val).toNat < 128 := by
  decide

theorem b64value_b64char (v : Nat) (h : v < 64) : b64value (b64char v) = some v :=
  (b64_fin ⟨v, h⟩).1

theorem b64char_ne_pad (v : Nat) (h : v < 64) : ¬(b64char v = '=') :=
  (b64_fin ⟨v, h⟩).2.1

theorem b64char_ascii (v : Nat) (h : v < 64) : (b64char v).toNat < 128 :=
  (b64_fin ⟨v, h⟩).2.2

theorem a2b_data0 (c : Char) (rest : List Char) (lc pads v : Nat)
    (hpad : ¬(c = '=')) (hval : b64value c = some v) :
    a2bBase64 (c :: rest) 0 lc pads = a2bBase64 rest 1 v 0 := by
  conv_lhs => rw [a2bBase64.eq_def]
  simp [hpad, hval]

theorem a2b_data1 (c : Char) (rest : List Char) (lc pads v : Nat)
    (hpad : ¬(c = '=')) (hval : b64value c = some v) :
    a2bBase64 (c :: rest) 1 lc pads
      = (a2bBase64 rest 2 (v % 16) 0).map (fun bs => (lc * 4 + v / 16) :: bs) := by
  conv_lhs => rw [a2bBase64.eq_def]
  simp [hpad, hval]

theorem a2b_data2 (c : Char) (rest : List Char) (lc pads v : Nat)
    (hpad : ¬(c = '=')) (hval : b64value c = some v) :
    a2bBase64 (c :: rest) 2 lc pads
      = (a2bBase64 rest 3 (v % 4) 0).map (fun bs => (lc * 16 + v / 4) :: bs) := by
  conv_lhs => rw [a2bBase64.eq_def]
  simp [hpad, hval]

theorem a2b_data3 (c : Char) (rest : List Char) (lc pads v : Nat)
    (hpad : ¬(c = '=')) (hval : b64value c = some v) :
    a2bBase64 (c :: rest) 3 lc pads
      = (a2bBase64 rest 0 0 0).map (fun bs => (lc * 64 + v) :: bs) := by
  conv_lhs => rw [a2bBase64.eq_def]
  simp [hpad, hval]

theorem a2b_pad2_cont (rest : List Char) (lc : Nat) :
    a2bBase64 ('=' :: rest) 2 lc 0 = a2bBase64 rest 2 lc 1 := by
  conv_lhs => rw [a2bBase64.eq_def]
  norm_num

theorem a2b_pad2_done (rest : List Char) (lc : Nat) :
    a2bBase64 ('=' :: rest) 2 lc 1 = Except.ok [] := by
  conv_lhs => rw [a2bBase64.eq_def]
  norm_num

theorem a2b_pad3_done (rest : List Char) (lc : Nat) :
    a2bBase64 ('=' :: rest) 3 lc 0 = Except.ok [] := by
  conv_lhs => rw [a2bBase64.eq_def]
  norm_num

theorem a2b_encode (bs : List Nat) (h : ∀ b ∈ bs, b < 256) :
    a2bBase64 (b64encodeBytes bs) 0 0 0 = Except.ok bs := by
  induction bs using b64encodeBytes.induct with
  | case1 => rfl
  | case2 a =>
    have ha : a < 256 := h a (by simp)
    have h1 : a / 4 < 64 := by omega
    have h2 : a % 4 * 16 < 64 := by omega
    show a2bBase64 [b64char (a / 4), b64char (a % 4 * 16), '=', '='] 0 0 0 = Except.ok [a]
    rw [a2b_data0 _ _ _ _ _ (b64char_ne_pad _ h1) (b64value_b64char _ h1)]
    rw [a2b_data1 _ _ _ _ _ (b64char_ne_pad _ h2) (b64value_b64char _ h2)]
    rw [a2b_pad2_cont, a2b_pad2_done]
    simp only [Except.map, Except.ok.injEq, List.cons.injEq, and_true]
    omega
  | case3 a b =>
    have ha : a < 256 := h a (by simp)
    have hb : b < 256 := h b (by simp)
    have h1 : a / 4 < 64 := by omega
    have h2 : a % 4 * 16 + b / 16 < 64 := by omega
    have h3 : b % 16 * 4 < 64 := by omega
    show a2bBase64
        [b64char (a / 4), b64char (a % 4 * 16 + b / 16), b64char (b % 16 * 4), '='] 0 0 0
      = Except.ok [a, b]
    rw [a2b_data0 _ _ _ _ _ (b64char_ne_pad _ h1) (b64value_b64char _ h1)]
    rw [a2b_data1 _ _ _ _ _ (b64char_ne_pad _ h2) (b64value_b64char _ h2)]
    rw [a2b_data2 _ _ _ _ _ (b64char_ne_pad _ h3) (b64value_b64char _ h3)]
    rw [a2b_pad3_done]
    simp only [Except.map, Except.ok.injEq, List.cons.injEq, and_true]
    constructor
    · omega
    · omega
  | case4 a b c rest ih =>
    have ha : a < 256 := h a (by simp)
    have hb : b < 256 := h b (by simp)
    have hc : c < 256 := h c (by simp)
    have hrest : ∀ x ∈ rest, x < 256 := by
      intro x hx
      exact h x (by simp [hx])
    have h1 : a / 4 < 64 := by omega
    have h2 : a % 4 * 16 + b / 16 < 64 := by omega
    have h3 : b % 16 * 4 + c / 64 < 64 := by omega
    have h4 : c % 64 < 64 := by omega
    show a2bBase64
        (b64char (a / 4) :: b64char (a % 4 * 16 + b / 16) ::
          b64char (b % 16 * 4 + c / 64) :: b64char (c % 64) :: b64encodeBytes rest) 0 0 0
      = Except.ok (a :: b :: c :: rest)
    rw [a2b_data0 _ _ _ _ _ (b64char_ne_pad _ h1) (b64value_b64char _ h1)]
    rw [a2b_data1 _ _ _ _ _ (b64char_ne_pad _ h2) (b64value_b64char _ h2)]
    rw [a2b_data2 _ _ _ _ _ (b64char_ne_pad _ h3) (b64value_b64char _ h3)]
    rw [a2b_data3 _ _ _ _ _ (b64char_ne_pad _ h4) (b64value_b64char _ h4)]
    rw [ih hrest]
    simp only [Except.map, Except.ok.injEq, List.cons.injEq, and_true]
    refine ⟨by omega, by omega, by omega⟩

theorem b64encodeBytes_ascii (bs : List Nat) (h : ∀ b ∈ bs, b < 256) :
    ∀ ch ∈ b64encodeBytes bs, ch.toNat < 128 := by
  induction bs using b64encodeBytes.induct with
  | case1 => intro ch hch; simp [b64encodeBytes] at hch
  | case2 a =>
    have ha : a < 256 := h a (by simp)
    intro ch hch
    simp only [b64encodeBytes, List.mem_cons, List.not_mem_nil, or_false] at hch
    rcases hch with rfl | rfl | rfl | rfl
    · exact b64char_ascii _ (by omega)
    · exact b64char_ascii _ (by omega)
    · decide
    · decide
  | case3 a b =>
    have ha : a < 256 := h a (by simp)
    have hb : b < 256 := h b (by simp)
    intro ch hch
    simp only [b64encodeBytes, List.mem_cons, List.not_mem_nil, or_false] at hch
    rcases hch with rfl | rfl | rfl | rfl
    · exact b64char_ascii _ (by omega)
    · exact b64char_ascii _ (by omega)
    · exact b64char_ascii _ (by omega)
    · decide
  | case4 a b c rest ih =>
    have ha : a < 256 := h a (by simp)
    have hb : b < 256 := h b (by simp)
    have hc : c < 256 := h c (by simp)
    have hrest : ∀ x ∈ rest, x < 256 := by
      intro x hx
      exact h x (by simp [hx])
    intro ch hch
    simp only [b64encodeBytes, List.mem_cons] at hch
    rcases hch with rfl | rfl | rfl | rfl | hch
    · exact b64char_ascii _ (by omega)
    · exact b64char_ascii _ (by omega)
    · exact b64char_ascii _ (by omega)
    · exact b64char_ascii _ (by omega)
    · exact ih hrest ch hch

/-! ## UTF-8 round-trip lemmas -/

theorem char_toNat_valid (c : Char) :
    c.toNat < 55296 ∨ (57343 < c.toNat ∧ c.toNat < 1114112) := by
  have h := c.valid
  have hlink : c.toNat = c.val.toNat := rfl
  rcases h with h | h
  · left
    omega
  · right
    omega

theorem utf8EncodeChar_lt256 (c : Char) : ∀ b ∈ utf8EncodeChar c, b < 256 := by
  intro b hb
  have hlt : c.toNat < 1114112 := by
    rcases char_toNat_valid c with h | h
    · omega
    · omega
  unfold utf8EncodeChar at hb
  split at hb
  · simp only [List.mem_cons, List.not_mem_nil, or_false] at hb
    omega
  · split at hb
    · simp only [List.mem_cons, List.not_mem_nil, or_false] at hb
      rcases hb with rfl | rfl <;> omega
    · split at hb
      · simp only [List.mem_cons, List.not_mem_nil, or_false] at hb
        rcases hb with rfl | rfl | rfl <;> omega
      · simp only [List.mem_cons, List.not_mem_nil, or_false] at hb
        rcases hb with rfl | rfl | rfl | rfl <;> omega

theorem utf8Encode_lt256 (s : List Char) : ∀ b ∈ utf8Encode s, b < 256 := by
  intro b hb
  unfold utf8Encode at hb
  rw [List.mem_flatten] at hb
  rcases hb with ⟨bs, hbs, hbbs⟩
  rw [List.mem_map] at hbs
  rcases hbs with ⟨c, _, rfl⟩
  exact utf8EncodeChar_lt256 c b hbbs

theorem utf8DecodeSM_nil (need acc lo hi : Nat) :
    utf8DecodeSM [] need acc lo hi = if need = 0 then some [] else none := rfl

theorem utf8DecodeSM_cons (b : Nat) (rest : List Nat) (need acc lo hi : Nat) :
    utf8DecodeSM (b :: rest) need acc lo hi =
      if need = 0 then
        if b < 128 then (utf8DecodeSM rest 0 0 128 192).map (fun cs => Char.ofNat b :: cs)
        else if b < 194 then none
        else if b < 224 then utf8DecodeSM rest 1 (b - 192) 128 192
        else if b = 224 then utf8DecodeSM rest 2 (b - 224) 160 192
        else if b = 237 then utf8DecodeSM rest 2 (b - 224) 128 160
        else if b < 240 then utf8DecodeSM rest 2 (b - 224) 128 192
        else if b = 240 then utf8DecodeSM rest 3 (b - 240) 144 192
        else if b < 244 then utf8DecodeSM rest 3 (b - 240) 128 192
        else if b = 244 then utf8DecodeSM rest 3 (b - 240) 128 144
        else none
      else
        if lo ≤ b ∧ b < hi then
          if need = 1 then
            (utf8DecodeSM rest 0 0 128 192).map
              (fun cs => Char.ofNat (acc * 64 + (b - 128)) :: cs)
          else utf8DecodeSM rest (need - 1) (acc * 64 + (b - 128)) 128 192
        else none := rfl

theorem utf8Decode_encodeChar (c : Char) (rest : List Nat) :
    utf8DecodeSM (utf8EncodeChar c ++ rest) 0 0 128 192
      = (utf8DecodeSM rest 0 0 128 192).map (fun cs => c :: cs) := by
  have hv := char_toNat_valid c
  unfold utf8EncodeChar
  by_cases h1 : c.toNat < 128
  · rw [if_pos h1]
    show utf8DecodeSM (c.toNat :: rest) 0 0 128 192 = _
    rw [utf8DecodeSM_cons, if_pos rfl, if_pos h1, Char.ofNat_toNat]
  · by_cases h2 : c.toNat < 2048
    · rw [if_neg h1, if_pos h2]
      show utf8DecodeSM ((192 + c.toNat / 64) :: (128 + c.toNat % 64) :: rest) 0 0 128 192 = _
      rw [utf8DecodeSM_cons, if_pos rfl, if_neg (by omega), if_neg (by omega),
        if_pos (by omega)]
      rw [utf8DecodeSM_cons, if_neg (by omega), if_pos ⟨by omega, by omega⟩, if_pos rfl]
      have hval : (192 + c.toNat / 64 - 192) * 64 + (128 + c.toNat % 64 - 128) = c.toNat := by
        omega
      rw [hval, Char.ofNat_toNat]
    · by_cases h3 : c.toNat < 65536
      · rw [if_neg h1, if_neg h2, if_pos h3]
        show utf8DecodeSM ((224 + c.toNat / 4096) :: (128 + c.toNat / 64 % 64) ::
          (128 + c.toNat % 64) :: rest) 0 0 128 192 = _
        have hlead : utf8DecodeSM ((224 + c.toNat / 4096) :: (128 + c.toNat / 64 % 64) ::
            (128 + c.toNat % 64) :: rest) 0 0 128 192
            = utf8DecodeSM ((128 + c.toNat / 64 % 64) :: (128 + c.toNat % 64) :: rest) 2
                (224 + c.toNat / 4096 - 224)
                (if 224 + c.toNat / 4096 = 224 then 160 else 128)
                (if 224 + c.toNat / 4096 = 237 then 160 else 192) := by
          rw [utf8DecodeSM_cons, if_pos rfl, if_neg (by omega), if_neg (by omega),
            if_neg (by omega)]
          by_cases hE0 : 224 + c.toNat / 4096 = 224
          · rw [if_pos hE0, if_pos hE0, if_neg (by omega)]
          · rw [if_neg hE0, if_neg hE0]
            by_cases hED : 224 + c.toNat / 4096 = 237
            · rw [if_pos hED, if_pos hED]
            · rw [if_neg hED, if_neg hED, if_pos (by omega)]
        rw [hlead]
        have hcont1 : (if 224 + c.toNat / 4096 = 224 then 160 else 128) ≤
              128 + c.toNat / 64 % 64 ∧
            128 + c.toNat / 64 % 64 < (if 224 + c.toNat / 4096 = 237 then 160 else 192) := by
          rcases hv with hvl | hvr
          · split_ifs <;> omega
          · split_ifs <;> omega
        rw [utf8DecodeSM_cons, if_neg (by omega), if_pos hcont1, if_neg (by omega)]
        rw [utf8DecodeSM_cons, if_neg (by omega), if_pos ⟨by omega, by omega⟩, if_pos rfl]
        have hval : ((224 + c.toNat / 4096 - 224) * 64 + (128 + c.toNat / 64 % 64 - 128)) * 64 +
            (128 + c.toNat % 64 - 128) = c.toNat := by omega
        rw [hval, Char.ofNat_toNat]
      · have h4 : c.toNat < 1114112 := by
          rcases hv with hl | hr
          · omega
          · omega
        rw [if_neg h1, if_neg h2, if_neg h3]
        show utf8DecodeSM ((240 + c.toNat / 262144) :: (128 + c.toNat / 4096 % 64) ::
          (128 + c.toNat / 64 % 64) :: (128 + c.toNat % 64) :: rest) 0 0 128 192 = _
        have hlead : utf8DecodeSM ((240 + c.toNat / 262144) :: (128 + c.toNat / 4096 % 64) ::
            (128 + c.toNat / 64 % 64) :: (128 + c.toNat % 64) :: rest) 0 0 128 192
            = utf8DecodeSM ((128 + c.toNat / 4096 % 64) :: (128 + c.toNat / 64 % 64) ::
                (128 + c.toNat % 64) :: rest) 3
                (240 + c.toNat / 262144 - 240)
                (if 240 + c.toNat / 262144 = 240 then 144 else 128)
                (if 240 + c.toNat / 262144 = 244 then 144 else 192) := by
          rw [utf8DecodeSM_cons, if_pos rfl, if_neg (by omega), if_neg (by omega),
            if_neg (by omega), if_neg (by omega), if_neg (by omega), if_neg (by omega)]
          by_cases hF0 : 240 + c.toNat / 262144 = 240
          · rw [if_pos hF0, if_pos hF0, if_neg (by omega)]
          · rw [if_neg hF0, if_neg hF0]
            by_cases hF4 : 240 + c.toNat / 262144 = 244
            · rw [if_pos hF4, if_neg (by omega), if_pos hF4]
            · rw [if_neg hF4, if_neg hF4, if_pos (by omega)]
        rw [hlead]
        have hcont1 : (if 240 + c.toNat / 262144 = 240 then 144 else 128) ≤
              128 + c.toNat / 4096 % 64 ∧
            128 + c.toNat / 4096 % 64 < (if 240 + c.toNat / 262144 = 244 then 144 else 192) := by
          split_ifs <;> omega
        rw [utf8DecodeSM_cons, if_neg (by omega), if_pos hcont1, if_neg (by omega)]
        rw [utf8DecodeSM_cons, if_neg (by omega), if_pos ⟨by omega, by omega⟩,
          if_neg (by omega)]
        rw [utf8DecodeSM_cons, if_neg (by omega), if_pos ⟨by omega, by omega⟩, if_pos rfl]
        have hval : (((240 + c.toNat / 262144 - 240) * 64 +
            (128 + c.toNat / 4096 % 64 - 128)) * 64 +
            (128 + c.toNat / 64 % 64 - 128)) * 64 + (128 + c.toNat % 64 - 128) = c.toNat := by
          omega
        rw [hval, Char.ofNat_toNat]

theorem utf8Decode_encode (s : List Char) : utf8Decode (utf8Encode s) = some s := by
  induction s with
  | nil => rfl
  | cons c cs ih =>
    have hsplit : utf8Encode (c :: cs) = utf8EncodeChar c ++ utf8Encode cs := by
      simp [utf8Encode]
    unfold utf8Decode at ih ⊢
    rw [hsplit, utf8Decode_encodeChar, ih]
    rfl

/-! ## Claim C2: Base64 round trip -/

/-- C2: for every string, decoding the output of the `base64_converter`
encode transform (`b64decode` then UTF-8 decoding, as the decode branch
does) returns the original string. -/
theorem C2_base64_roundtrip (s : List Char) :
    base64DecodeCore (b64EncodeText s) = Except.ok s := by
  unfold base64DecodeCore b64EncodeText pyB64decode
  have hascii : ¬((b64encodeBytes (utf8Encode s)).any (fun c => 128 ≤ c.toNat) = true) := by
    rw [List.any_eq_true]
    rintro ⟨ch, hch, hp⟩
    have hlt := b64encodeBytes_ascii (utf8Encode s) (utf8Encode_lt256 s) ch hch
    simp at hp
    omega
  rw [if_neg hascii, a2b_encode _ (utf8Encode_lt256 s)]
  show (match utf8Decode (utf8Encode s) with
    | none => Except.error PyErr.unicodeDecode
    | some d => Except.ok d) = Except.ok s
  rw [utf8Decode_encode]

/-! ## Claim C6: decode-path error reporting -/

/-- C6 counterexample: the input `QUJD!` contains `!`, a character outside
the standard Base64 alphabet, yet the decode path succeeds with `ABC`
because `b64decode` discards non-alphabet characters instead of reporting
them. -/
theorem C6_counterexample :
    base64DecodeCore ("QUJD!".toList) = Except.ok ("ABC".toList) ∧ b64value '!' = none := by
  decide

/-- C6 (amended): the decode path either succeeds — producing the decode
message that contains the decoded text — or fails with the reported
`❌ Error with Base64 operation:` string; the failure cases are exactly
those of `base64DecodeCore`: non-ASCII input, bad padding or a trailing
data character after non-alphabet characters have been discarded, or
decoded bytes that are not valid UTF-8. -/
theorem C6_decode_error_reporting (text : List Char) :
    (∃ d, base64DecodeCore text = Except.ok d ∧
       base64DecodeResult text = mkB64DecodeMsg text d ∧
       List.IsInfix d (base64DecodeResult text)) ∨
    (∃ e, base64DecodeCore text = Except.error e ∧
       base64DecodeResult text
         = "❌ Error with Base64 operation: ".toList ++ pyErrStr e) := by
  cases h : base64DecodeCore text with
  | ok d =>
    left
    have hres : base64DecodeResult text = mkB64DecodeMsg text d := by
      unfold base64DecodeResult
      rw [h]
    refine ⟨d, rfl, hres, ?_⟩
    rw [hres]
    unfold mkB64DecodeMsg
    refine ⟨"✅ **BASE64 DECODED**\n\n**Encoded:** ".toList ++ echo100 text
      ++ "\n**Decoded:** ".toList, "\n\n📋 **Copy the decoded text above!**".toList, ?_⟩
    simp [List.append_assoc]
  | error e =>
    right
    refine ⟨e, rfl, ?_⟩
    unfold base64DecodeResult b64OpError
    rw [h]

/-! ## Per-branch totality under schema-conformant arguments -/

theorem validate_branch_ok (env : Env) (args : Args)
    (h : (getArg args "token" (PyValue.str [])).isStr = true) :
    (validate_branch env args).isOk = true := by
  unfold validate_branch
  rcases hv : getArg args "token" (PyValue.str []) with s | n | b
  · rfl
  · rw [hv] at h
    simp [PyValue.isStr] at h
  · rw [hv] at h
    simp [PyValue.isStr] at h

theorem count_text_body_ok (text : List Char) : (count_text_body text).isOk = true := by
  unfold count_text_body
  split <;> rfl

theorem count_text_branch_ok (args : Args)
    (h : (getArg args "text" (PyValue.str [])).isStr = true) :
    (count_text_branch args).isOk = true := by
  unfold count_text_branch
  rcases hv : getArg args "text" (PyValue.str []) with s | n | b
  · exact count_text_body_ok s
  · rw [hv] at h
    simp [PyValue.isStr] at h
  · rw [hv] at h
    simp [PyValue.isStr] at h

theorem convert_case_body_ok (text ct0 : List Char) :
    (convert_case_body text ct0).isOk = true := by
  unfold convert_case_body
  split
  · rfl
  · split <;> rfl

theorem convert_case_branch_ok (args : Args)
    (ht : (getArg args "text" (PyValue.str [])).isStr = true)
    (hc : (getArg args "case_type" (PyValue.str [])).isStr = true) :
    (convert_case_branch args).isOk = true := by
  unfold convert_case_branch
  rcases hv1 : getArg args "case_type" (PyValue.str []) with s1 | n1 | b1
  · rcases hv2 : getArg args "text" (PyValue.str []) with s2 | n2 | b2
    · exact convert_case_body_ok s2 s1
    · rw [hv2] at ht
      simp [PyValue.isStr] at ht
    · rw [hv2] at ht
      simp [PyValue.isStr] at ht
  · rw [hv1] at hc
    simp [PyValue.isStr] at hc
  · rw [hv1] at hc
    simp [PyValue.isStr] at hc

theorem clean_text_body_ok (text : List Char) (mode : PyValue) :
    (clean_text_body text mode).isOk = true := by
  unfold clean_text_body
  split
  · rfl
  · split
    · rfl
    · split
      · rfl
      · split <;> rfl

theorem clean_text_branch_ok (args : Args)
    (ht : (getArg args "text" (PyValue.str [])).isStr = true) :
    (clean_text_branch args).isOk = true := by
  unfold clean_text_branch
  rcases hv : getArg args "text" (PyValue.str []) with s | n | b
  · exact clean_text_body_ok s _
  · rw [hv] at ht
    simp [PyValue.isStr] at ht
  · rw [hv] at ht
    simp [PyValue.isStr] at ht

theorem base64_converter_body_ok (op0 : List Char) (textV : PyValue) :
    (base64_converter_body op0 textV).isOk = true := by
  unfold base64_converter_body
  split
  · split <;> rfl
  · split
    · split <;> rfl
    · rfl

theorem base64_converter_branch_ok (args : Args)
    (ho : (getArg args "operation" (PyValue.str [])).isStr = true) :
    (base64_converter_branch args).isOk = true := by
  unfold base64_converter_branch
  rcases hv : getArg args "operation" (PyValue.str []) with s | n | b
  · exact base64_converter_body_ok s _
  · rw [hv] at ho
    simp [PyValue.isStr] at ho
  · rw [hv] at ho
    simp [PyValue.isStr] at ho

theorem generate_password_body_ok (env : Env) (args : Args) (length : Int) :
    (generate_password_body env args length).isOk = true := by
  unfold generate_password_body
  dsimp only
  split
  · rfl
  · split <;> rfl

theorem generate_password_branch_ok (env : Env) (args : Args)
    (h : (getArg args "length" (PyValue.int 16)).isInt = true) :
    (generate_password_branch env args).isOk = true := by
  unfold generate_password_branch
  rcases hv : getArg args "length" (PyValue.int 16) with s | n | b
  · rw [hv] at h
    simp [PyValue.isInt] at h
  · exact generate_password_body_ok env args n
  · exact generate_password_body_ok env args _

theorem extract_data_body_ok (env : Env) (text dt0 : List Char) :
    (extract_data_body env text dt0).isOk = true := by
  unfold extract_data_body
  dsimp only
  repeat' first
  | rfl
  | split

theorem extract_data_branch_ok (env : Env) (args : Args)
    (ht : (getArg args "text" (PyValue.str [])).isStr = true)
    (hd : (getArg args "data_type" (PyValue.str [])).isStr = true) :
    (extract_data_branch env args).isOk = true := by
  unfold extract_data_branch
  rcases hv1 : getArg args "data_type" (PyValue.str []) with s1 | n1 | b1
  · rcases hv2 : getArg args "text" (PyValue.str []) with s2 | n2 | b2
    · exact extract_data_body_ok env s2 s1
    · rw [hv2] at ht
      simp [PyValue.isStr] at ht
    · rw [hv2] at ht
      simp [PyValue.isStr] at ht
  · rw [hv1] at hd
    simp [PyValue.isStr] at hd
  · rw [hv1] at hd
    simp [PyValue.isStr] at hd

/-! ## Claim C1: exception propagation through `call_tool` -/

/-- C1 counterexample: `count_text` with a non-string `text` argument
reaches `text.strip()` outside any `try`, so the `AttributeError` escapes
`call_tool` instead of being converted to a reported error string. -/
theorem C1_counterexample :
    call_tool defaultEnv "count_text" [("text", PyValue.int 0)]
      = Except.error PyErr.attributeError := by
  decide

/-- C1 (amended): whenever the supplied arguments carry the primitive
types declared in the tool's input schema (`schemaTyped`), `call_tool`
returns a reported result string and no exception escapes; with ill-typed
arguments some handlers raise before their `try` block and the exception
propagates. -/
theorem C1_no_exception_when_schema_typed (env : Env) (name : String) (args : Args)
    (h : schemaTyped name args = true) : (call_tool env name args).isOk = true := by
  unfold call_tool
  unfold schemaTyped at h
  by_cases h1 : name = "validate"
  · rw [if_pos h1]
    rw [if_pos h1] at h
    exact validate_branch_ok env args h
  · rw [if_neg h1]
    rw [if_neg h1] at h
    by_cases h2 : name = "count_text"
    · rw [if_pos h2]
      rw [if_pos h2] at h
      exact count_text_branch_ok args h
    · rw [if_neg h2]
      rw [if_neg h2] at h
      by_cases h3 : name = "convert_case"
      · rw [if_pos h3]
        rw [if_pos h3] at h
        rw [Bool.and_eq_true] at h
        exact convert_case_branch_ok args h.1 h.2
      · rw [if_neg h3]
        rw [if_neg h3] at h
        by_cases h4 : name = "clean_text"
        · rw [if_pos h4]
          rw [if_pos h4] at h
          rw [Bool.and_eq_true] at h
          exact clean_text_branch_ok args h.1
        · rw [if_neg h4]
          rw [if_neg h4] at h
          by_cases h5 : name = "base64_converter"
          · rw [if_pos h5]
            rw [if_pos h5] at h
            rw [Bool.and_eq_true] at h
            exact base64_converter_branch_ok args h.2
          · rw [if_neg h5]
            rw [if_neg h5] at h
            by_cases h6 : name = "generate_password"
            · rw [if_pos h6]
              rw [if_pos h6] at h
              exact generate_password_branch_ok env args h
            · rw [if_neg h6]
              rw [if_neg h6] at h
              by_cases h7 : name = "extract_data"
              · rw [if_pos h7]
                rw [if_pos h7] at h
                rw [Bool.and_eq_true] at h
                exact extract_data_branch_ok env args h.1 h.2
              · rw [if_neg h7]
                rfl

/-- C1 witness instance: a schema-conformant `count_text` call returns a
result string. -/
theorem C1_witness :
    (call_tool defaultEnv "count_text" [("text", PyValue.str ("hi there".toList))]).isOk
      = true :=
  C1_no_exception_when_schema_typed defaultEnv "count_text"
    [("text", PyValue.str ("hi there".toList))] (by decide)
